import Mathlib

/-!
# Verification of the SeaCat Auth OIDC authorization core

Shallow embedding of the `seacatauth` authorization-code flow
(`openidconnect/handler/authorize.py`), the cookie introspection handler
(`cookie/handler.py`), session/authz construction (`openidconnect/service.py`),
the LDAP credentials provider connection discipline
(`credentials/providers/ldap.py`) and the access-token lookup
(`openidconnect/service.py`), together with proofs settling the frozen claims
about the natural-language specification.

Strings are modelled as `List Char` (`Str`).  The pieces of Python's
`urllib.parse` that the source calls are embedded for the ASCII subset that
the handlers actually exchange (each embedded helper carries a doc comment).
-/

set_option maxHeartbeats 1000000

abbrev Str := List Char

/-- Convert a string literal to the `List Char` representation used throughout. -/
def cs (s : String) : Str := s.data

/-- Uppercase hexadecimal digits, as used by `urllib.parse.quote`. -/
def hexDigits : Str := cs "0123456789ABCDEF"

/-- One percent-encoded byte (`%XX`, uppercase), for an ASCII character. -/
def percentEncode (c : Char) : Str :=
  ['%', hexDigits.getD (c.toNat / 16 % 16) 'X', hexDigits.getD (c.toNat % 16) 'X']

/-- Characters `urllib.parse.quote_plus` leaves unescaped (`always_safe`):
alphanumerics and `_.-~`. -/
def isUnreserved (c : Char) : Bool :=
  c.isAlphanum || c = '_' || c = '.' || c = '-' || c = '~'

/-- `urllib.parse.quote_plus` on one character: unreserved characters pass
through, a space becomes `+`, anything else is percent-encoded. -/
def quotePlusChar (c : Char) : Str :=
  if isUnreserved c then [c] else if c = ' ' then ['+'] else percentEncode c

/-- `urllib.parse.quote_plus` (ASCII subset). -/
def quotePlus (s : Str) : Str := (s.map quotePlusChar).flatten

/-- `urllib.parse.quote` with the default `safe='/'` (ASCII subset):
like `quote_plus` except `/` is kept and a space is percent-encoded. -/
def quoteChar (c : Char) : Str :=
  if isUnreserved c || c = '/' then [c] else percentEncode c

/-- `urllib.parse.quote` (ASCII subset). -/
def quote (s : Str) : Str := (s.map quoteChar).flatten

/-- `urllib.parse.urlencode` on a list of key-value pairs (flat, no `doseq`):
`quote_plus(k)=quote_plus(v)` joined by `&`. -/
def urlencode (qs : List (Str × Str)) : Str :=
  List.intercalate (cs "&") (qs.map fun kv => quotePlus kv.1 ++ '=' :: quotePlus kv.2)

/-- `urllib.parse.urlencode(..., doseq=True)` on a dict whose values are lists
(the shape produced by `parse_qs`): one `k=v` pair per list element, in order. -/
def urlencodeDoseq (qs : List (Str × List Str)) : Str :=
  List.intercalate (cs "&")
    ((qs.map fun kv => kv.2.map fun v => quotePlus kv.1 ++ '=' :: quotePlus v).flatten)

/-- Split a list at the first occurrence of `c`: returns the part before it and,
when `c` occurs, the part after it. -/
def splitFirstOpt (c : Char) (s : Str) : Str × Option Str :=
  match s.dropWhile (· ≠ c) with
  | [] => (s.takeWhile (· ≠ c), none)
  | _ :: r => (s.takeWhile (· ≠ c), some r)

/-- Result of `urllib.parse.urlparse`. -/
structure UrlParts where
  scheme : Str
  netloc : Str
  path : Str
  params : Str
  query : Str
  fragment : Str
deriving Repr, DecidableEq

/-- Characters allowed in a URL scheme after the initial letter. -/
def isSchemeChar (c : Char) : Bool :=
  c.isAlphanum || c = '+' || c = '-' || c = '.'

/-- `urllib.parse`'s `_splitparams`: parameters are split off at the first `;`
of the last path segment. -/
def splitParams (p : Str) : Str × Str :=
  if '/' ∈ p then
    let lastSeg := (p.reverse.takeWhile (· ≠ '/')).reverse
    if ';' ∈ lastSeg then
      let stem := p.take (p.length - lastSeg.length)
      match splitFirstOpt ';' lastSeg with
      | (a, some r) => (stem ++ a, r)
      | (a, none) => (stem ++ a, [])
    else (p, [])
  else
    match splitFirstOpt ';' p with
    | (a, some r) => (a, r)
    | (a, none) => (a, [])

/-- `urllib.parse.urlparse` (absolute/relative URL splitting, ASCII subset):
fragment after the first `#`, query after the first `?`, a scheme is recognised
before the first `:` when it is a letter followed by scheme characters
(lowercased), a netloc follows `//` up to the next `/`, and path parameters
follow the first `;` of the last path segment. -/
def urlparse (u : Str) : UrlParts :=
  let p1 := splitFirstOpt '#' u
  let fragment := p1.2.getD []
  let p2 := splitFirstOpt '?' p1.1
  let query := p2.2.getD []
  let p3 := splitFirstOpt ':' p2.1
  let schemeRest : Str × Str :=
    match p3.2 with
    | some after =>
        if p3.1 ≠ [] ∧ (p3.1.headD 'a').isAlpha ∧ p3.1.all isSchemeChar then
          (p3.1.map Char.toLower, after)
        else ([], p2.1)
    | none => ([], p2.1)
  let netlocRest : Str × Str :=
    match schemeRest.2 with
    | '/' :: '/' :: r => (r.takeWhile (· ≠ '/'), r.dropWhile (· ≠ '/'))
    | other => ([], other)
  let pp := splitParams netlocRest.2
  ⟨schemeRest.1, netlocRest.1, pp.1, pp.2, query, fragment⟩

/-- `urllib.parse.urlunparse`/`urlunsplit`: reassemble URL components; empty
components (Python falsy values) are omitted together with their separators. -/
def urlunparse (scheme netloc path params query fragment : Str) : Str :=
  let u1 := path ++ (if params ≠ [] then ';' :: params else [])
  let u2 :=
    if netloc ≠ [] ∨ u1.take 2 = cs "//" then
      cs "//" ++ netloc ++ (if u1 ≠ [] ∧ u1.headD ' ' ≠ '/' then '/' :: u1 else u1)
    else u1
  let u3 := if scheme ≠ [] then scheme ++ ':' :: u2 else u2
  let u4 := if query ≠ [] then u3 ++ '?' :: query else u3
  if fragment ≠ [] then u4 ++ '#' :: fragment else u4

/-- Split a list on every occurrence of the character `c`
(Python `str.split` semantics: `n` separators produce `n + 1` pieces). -/
def splitOnChar (c : Char) : Str → List Str
  | [] => [[]]
  | x :: s =>
      if x = c then [] :: splitOnChar c s
      else
        match splitOnChar c s with
        | p :: ps => (x :: p) :: ps
        | [] => [[x]]

/-- Hexadecimal digit value, accepting both cases. -/
def hexVal (c : Char) : Option Nat :=
  if '0' ≤ c ∧ c ≤ '9' then some (c.toNat - '0'.toNat)
  else if 'a' ≤ c ∧ c ≤ 'f' then some (c.toNat - 'a'.toNat + 10)
  else if 'A' ≤ c ∧ c ≤ 'F' then some (c.toNat - 'A'.toNat + 10)
  else none

/-- `urllib.parse.unquote_plus` (ASCII subset): `+` becomes a space and
`%XX` sequences are decoded; malformed escapes pass through. -/
def unquotePlus : Str → Str
  | [] => []
  | '%' :: a :: b :: r =>
      match hexVal a, hexVal b with
      | some va, some vb => Char.ofNat (16 * va + vb) :: unquotePlus r
      | _, _ => '%' :: unquotePlus (a :: b :: r)
  | '+' :: r => ' ' :: unquotePlus r
  | c :: r => c :: unquotePlus r

/-- `urllib.parse.parse_qsl` with default options: split on `&`, skip empty
pieces, skip pieces without `=` and pieces with an empty value, decode both
sides with `unquote_plus`. -/
def parseQsl (q : Str) : List (Str × Str) :=
  (splitOnChar '&' q).filterMap fun piece =>
    if piece = [] then none
    else
      match splitFirstOpt '=' piece with
      | (_, none) => none
      | (n, some v) => if v = [] then none else some (unquotePlus n, unquotePlus v)

/-- Append `v` to the entry for `k` in an ordered dict, inserting at the end
when `k` is absent (Python dict insertion-order semantics). -/
def dictAppend (d : List (Str × List Str)) (k : Str) (v : Str) : List (Str × List Str) :=
  match d with
  | [] => [(k, [v])]
  | kv :: rest => if kv.1 = k then (kv.1, kv.2 ++ [v]) :: rest else kv :: dictAppend rest k v

/-- Set the entry for `k` in an ordered dict (`d[k] = vs`): an existing key
keeps its position, a new key is appended. -/
def dictSet (d : List (Str × List Str)) (k : Str) (vs : List Str) : List (Str × List Str) :=
  match d with
  | [] => [(k, vs)]
  | kv :: rest => if kv.1 = k then (k, vs) :: rest else kv :: dictSet rest k vs

/-- `urllib.parse.parse_qs`: group the `parse_qsl` pairs by key, preserving
first-appearance order of keys. -/
def parseQs (q : Str) : List (Str × List Str) :=
  (parseQsl q).foldl (fun d kv => dictAppend d kv.1 kv.2) []

example : urlparse (cs "https://app1/cb") =
    ⟨cs "https", cs "app1", cs "/cb", [], [], []⟩ := by decide

example : urlparse (cs "https://auth.example.test/#/") =
    ⟨cs "https", cs "auth.example.test", cs "/", [], [], cs "/"⟩ := by decide

example : urlunparse (cs "https") (cs "app1") (cs "/cb") [] (cs "state=s1") [] =
    cs "https://app1/cb?state=s1" := by decide

example : parseQs (cs "a=1&b=2") = [(cs "a", [cs "1"]), (cs "b", [cs "2"])] := by decide

example : urlencode [(cs "error", cs "x y:z")] = cs "error=x+y%3Az" := by decide

/-!
## The authorize endpoint (`openidconnect/handler/authorize.py`)

`AuthorizeHandler.authentication_code_flow` and its reply helpers are embedded
as pure functions.  Collaborator calls (client service, tenant service, audit
service, RBAC, code minting) are represented by an `AuthorizeEnv` record that
fixes their outcomes for the request under consideration.
-/

/-- Outcome of `ClientService.authorize_client` for this request: success or
one of the exceptions caught in `authentication_code_flow`. -/
inductive ClientCheck where
  | ok
  | invalidClientId      -- `KeyError` ("Client ID not found")
  | invalidClientSecret  -- `exceptions.InvalidClientSecret`
  | invalidRedirectUri   -- `exceptions.InvalidRedirectURI`
  | otherClientError     -- `exceptions.ClientError`
deriving Repr, DecidableEq

/-- The slice of a root session read by the authorize flow
(`request.Session`): its type, credentials id, authorization map
(`Authorization.Authz`: tenant-or-`"*"` to resource list), the factor types of
`Authentication.LoginDescriptor["factors"]`, and the impersonator marker. -/
structure RootSession where
  sessionType : Str
  credentialsId : Str
  authz : List (Str × List Str)
  loginDescriptorFactors : List Str
  impersonatorSessionId : Option Str
deriving Repr, DecidableEq

/-- Collaborator outcomes and configuration visible to one authorize request.
`userTenants`, `lastAuthorizedTenants`, `enforceFactors`, `credEnforceFactors`,
`generatedCode` fix the results of the awaited service calls;
`requestStr` is `str(request)`, which matters only because one call site passes
the request object where a string is expected. -/
structure AuthorizeEnv where
  publicApiBaseUrl : Str
  authWebuiBaseUrl : Str
  clientCheck : ClientCheck
  userTenants : List Str
  tenantExists : Str → Bool
  lastAuthorizedTenants : List Str
  enforceFactors : Option (List Str)
  credEnforceFactors : List Str
  generatedCode : Str
  requestStr : Str

/-- The request parameters handed to `authentication_code_flow`. -/
structure AuthorizeRequest where
  scope : List Str
  client_id : Str
  redirect_uri : Str
  state : Option Str
  prompt : Option Str
  loginParameters : List (Str × Str)
deriving Repr, DecidableEq

/-- Cookie side effect attached to a reply: none, `set_cookie`, or
`delete_cookie`. -/
inductive CookieOp where
  | untouched
  | set
  | cleared
deriving Repr, DecidableEq

/-- Observable HTTP reply: status code, `Location` target, cookie effect. -/
structure HttpReply where
  status : Nat
  location : Str
  cookie : CookieOp
deriving Repr, DecidableEq

/-- Result of one run of the flow: the reply plus the other observable side
effects (audit error/success codes appended, root-session deletion, the tenant
set passed to `create_oidc_session` when a child session was created, and
whether `generate_authorization_code` ran). -/
structure FlowResult where
  reply : HttpReply
  audit : List Str
  sessionDeleted : Bool
  createdOidcSession : Option (List Str)
  codeIssued : Bool
deriving Repr, DecidableEq

/-- Modelled from the spec: `RBACService.has_resource_access(authz, tenant=None, ...)`
(module `seacatauth.authz.rbac`, not under `src/`).  Per §4.4 a global resource
grant means the requested resource appears under the `"*"` key of the authz
map. -/
def has_resource_access (authz : List (Str × List Str)) (resource : Str) : Bool :=
  match authz.find? (fun kv => kv.1 = cs "*") with
  | some kv => kv.2.contains resource
  | none => false

/-- `AuthorizeHandler.reply_with_authentication_error`: build the error query
string (`error`, optional `error_description`, optional `error_uri`, optional
`state`), then redirect to `redirect_uri?qs` (prepending an existing query of
`redirect_uri`), or to the public authorize page when `redirect_uri` is `None`. -/
def reply_with_authentication_error (env : AuthorizeEnv) (error : Str)
    (redirect_uri : Option Str) (error_description : Option Str)
    (error_uri : Option Str) (state : Option Str) : HttpReply :=
  let qs : List (Str × Str) :=
    [(cs "error", error)]
      ++ (match error_description with | some d => [(cs "error_description", d)] | none => [])
      ++ (match error_uri with | some u => [(cs "error_uri", u)] | none => [])
      ++ (match state with | some s => [(cs "state", s)] | none => [])
  let response_qs := urlencode qs
  match redirect_uri with
  | some ru =>
      let ruQs := (urlparse ru).query
      let response_qs := if ruQs.length > 0 then ruQs ++ '&' :: response_qs else response_qs
      ⟨302, ru ++ '?' :: response_qs, CookieOp.untouched⟩
  | none =>
      ⟨302, env.publicApiBaseUrl ++ cs "/openidconnect/authorize" ++ '?' :: response_qs,
        CookieOp.untouched⟩

/-- `" ".join(scope)` -/
def joinSpace (xs : List Str) : Str := List.intercalate [' '] xs

/-- `AuthorizeHandler.reply_with_redirect_to_login`: 404 whose `Location` is the
login UI with a `redirect_uri` looping back to the authorize endpoint carrying
the original parameters; the session cookie is deleted on this reply. -/
def reply_with_redirect_to_login (env : AuthorizeEnv) (response_type : Str)
    (scope : List Str) (client_id redirect_uri : Str) (state : Option Str)
    (login_parameters : List (Str × Str)) : HttpReply :=
  let authorize_query_params : List (Str × Str) :=
    [(cs "response_type", response_type),
     (cs "scope", joinSpace scope),
     (cs "client_id", client_id),
     (cs "redirect_uri", redirect_uri)]
      ++ (match state with | some s => [(cs "state", s)] | none => [])
  let authorize_redirect_uri :=
    env.publicApiBaseUrl ++ cs "/openidconnect/authorize" ++ '?' ::
      urlencode authorize_query_params
  let login_query_params :=
    login_parameters ++ [(cs "redirect_uri", authorize_redirect_uri)]
  let login_url :=
    env.authWebuiBaseUrl ++ cs "/#/login" ++ '?' :: urlencode login_query_params
  ⟨404, login_url, CookieOp.cleared⟩

/-- `AuthorizeHandler._get_factors_to_setup`: start from the globally enforced
factors, `list.remove` each factor type present in the session's login
descriptor, then append every credential-enforced factor not already listed
(the `set(credentials.get("enforce_factors", []))` is modelled as a list; only
membership is observable downstream). -/
def _get_factors_to_setup (env : AuthorizeEnv) (session : RootSession) : List Str :=
  let factors_to_setup : List Str :=
    match env.enforceFactors with
    | none => []
    | some efs =>
        session.loginDescriptorFactors.foldl
          (fun acc f => if acc.contains f then acc.erase f else acc) efs
  env.credEnforceFactors.foldl
    (fun acc f => if acc.contains f then acc else acc ++ [f]) factors_to_setup

/-- `AuthorizeHandler.reply_with_factor_setup_redirect`: 302 to the web UI home
whose fragment carries `setup=<space-joined factors>` and a percent-quoted
`redirect_uri` looping back to authorize with `prompt=login`; sets the session
cookie when `"cookie"` is in scope. -/
def reply_with_factor_setup_redirect (env : AuthorizeEnv) (missing_factors : List Str)
    (response_type : Str) (scope : List Str) (client_id redirect_uri : Str)
    (state : Option Str) : HttpReply :=
  let sfa := urlparse (env.authWebuiBaseUrl ++ cs "/#/")
  let authorize_query_params : List (Str × Str) :=
    [(cs "prompt", cs "login"),
     (cs "response_type", response_type),
     (cs "scope", joinSpace scope),
     (cs "client_id", client_id),
     (cs "redirect_uri", redirect_uri)]
      ++ (match state with | some s => [(cs "state", s)] | none => [])
  let authorize_redirect_uri :=
    env.publicApiBaseUrl ++ cs "/openidconnect/authorize" ++ '?' ::
      urlencode authorize_query_params
  let auth_url_params : List (Str × Str) :=
    [(cs "setup", joinSpace missing_factors),
     (cs "redirect_uri", quote authorize_redirect_uri)]
  let fragment := sfa.fragment ++ '?' :: urlencode auth_url_params
  let sfa_url := urlunparse sfa.scheme sfa.netloc sfa.path sfa.params [] fragment
  ⟨302, sfa_url, if scope.contains (cs "cookie") then CookieOp.set else CookieOp.untouched⟩

/-- `AuthorizeHandler.reply_with_successful_response`: re-parse `redirect_uri`,
merge `state` into its query, add `code` only when `"cookie"` is **not** in
scope (`generate_authorization_code` runs only then: the Bool reports it),
reassemble the URL and reply 302, setting the session cookie when `"cookie"`
is in scope. -/
def reply_with_successful_response (env : AuthorizeEnv) (scope : List Str)
    (redirect_uri : Str) (state : Option Str) : HttpReply × Bool :=
  let url := urlparse redirect_uri
  let url_qs := parseQs url.query
  let url_qs :=
    match state with
    | some s => dictSet url_qs (cs "state") [s]
    | none => url_qs
  let withCode : List (Str × List Str) × Bool :=
    if ¬ scope.contains (cs "cookie") then
      (dictSet url_qs (cs "code") [env.generatedCode], true)
    else (url_qs, false)
  let newUrl :=
    urlunparse url.scheme url.netloc url.path url.params
      (urlencodeDoseq withCode.1) url.fragment
  (⟨302, newUrl, if scope.contains (cs "cookie") then CookieOp.set else CookieOp.untouched⟩,
   withCode.2)

/-- Insert preserving set semantics of the Python `set` accumulating tenants
(order abstracted to insertion order; downstream only membership matters). -/
def setInsert (l : List Str) (x : Str) : List Str :=
  if l.contains x then l else l ++ [x]

/-- `tenants.update(user_tenants)` -/
def setUnionL (l : List Str) (m : List Str) : List Str := m.foldl setInsert l

/-- The tenant-authorization loop of `authentication_code_flow` (lines
278-324): walk the scope entries prefixed `tenant:`; `tenant:*` adds all the
user's tenants; an assigned tenant is added; with access to all tenants an
existing tenant is added, a nonexistent one fails (audit `tenant_not_found`,
reply error `unauthorized_tenant`); otherwise fails (audit and reply
`unauthorized_tenant`). On failure the returned pair is the audit code and the
reply. -/
def tenantLoop (env : AuthorizeEnv) (req : AuthorizeRequest) (session : RootSession)
    (user_has_access_to_all_tenants : Bool) :
    List Str → List Str → Except (Str × HttpReply) (List Str)
  | [], tenants => Except.ok tenants
  | resource :: rest, tenants =>
      if (cs "tenant:").isPrefixOf resource then
        let tenant := resource.drop 7
        if tenant = cs "*" then
          tenantLoop env req session user_has_access_to_all_tenants rest
            (setUnionL tenants env.userTenants)
        else if env.userTenants.contains tenant then
          tenantLoop env req session user_has_access_to_all_tenants rest
            (setInsert tenants tenant)
        else if user_has_access_to_all_tenants then
          if env.tenantExists tenant then
            tenantLoop env req session user_has_access_to_all_tenants rest
              (setInsert tenants tenant)
          else
            Except.error (cs "tenant_not_found",
              reply_with_authentication_error env (cs "unauthorized_tenant")
                (some req.redirect_uri) (some (cs "Unauthorized tenant: " ++ tenant))
                none req.state)
        else
          Except.error (cs "unauthorized_tenant",
            reply_with_authentication_error env (cs "unauthorized_tenant")
              (some req.redirect_uri) (some (cs "Unauthorized tenant: " ++ tenant))
              none req.state)
      else
        tenantLoop env req session user_has_access_to_all_tenants rest tenants

/-- Tenant resolution of `authentication_code_flow` (lines 278-348): the
`tenant:` loop followed by the bare-`tenant` fallback (last authorized tenant,
else any assigned tenant, else `user_has_no_tenant`). -/
def resolve_tenants (env : AuthorizeEnv) (req : AuthorizeRequest)
    (session : RootSession) : Except (Str × HttpReply) (List Str) :=
  let user_has_access_to_all_tenants :=
    has_resource_access session.authz (cs "authz:superuser")
      || has_resource_access session.authz (cs "authz:tenant:access")
  match tenantLoop env req session user_has_access_to_all_tenants req.scope [] with
  | Except.error e => Except.error e
  | Except.ok tenants =>
      if tenants = [] ∧ req.scope.contains (cs "tenant") then
        let last_tenants :=
          env.lastAuthorizedTenants.filter (fun t => env.userTenants.contains t)
        match last_tenants with
        | t :: _ => Except.ok (setInsert tenants t)
        | [] =>
            match env.userTenants with
            | u :: _ => Except.ok (setInsert tenants u)
            | [] =>
                Except.error (cs "user_has_no_tenant",
                  reply_with_authentication_error env (cs "user_has_no_tenant")
                    (some req.redirect_uri) (some (cs "User has no tenant."))
                    none req.state)
      else Except.ok tenants

/-- `prompt not in frozenset([None, "none", "login", "select_account"])` -/
def promptValid (prompt : Option Str) : Bool :=
  match prompt with
  | none => true
  | some p => p = cs "none" || p = cs "login" || p = cs "select_account"

/-- `"{}"` formatting of an optional string (Python renders `None`). -/
def pyFormatOpt (o : Option Str) : Str :=
  match o with
  | none => cs "None"
  | some s => s

/-- `AuthorizeHandler.authentication_code_flow` after the client check: scope
check, session-type check, prompt validation, the `prompt=login` session
deletion, the `prompt=none` error (translated exactly as called in the source:
the request object is passed in the `error` position, `"login_required"` in
the `redirect_uri` position and the redirect URI in the `error_description`
position), redirect-to-login, tenant resolution, the factor-setup gate and the
successful response. -/
def flow_after_client_check (env : AuthorizeEnv) (req : AuthorizeRequest)
    (requestSession : Option RootSession) : FlowResult :=
  if ¬ req.scope.contains (cs "openid") then
    { reply := reply_with_authentication_error env (cs "invalid_scope")
        (some req.redirect_uri) (some (cs "Scope must contain 'openid'")) none req.state,
      audit := [cs "invalid_scope"], sessionDeleted := false,
      createdOidcSession := none, codeIssued := false }
  else
    -- Only root sessions can be used to obtain an auth code
    let root_session0 : Option RootSession :=
      match requestSession with
      | some s => if s.sessionType ≠ cs "root" then none else some s
      | none => none
    if ¬ promptValid req.prompt then
      { reply := reply_with_authentication_error env (cs "invalid_request")
          (some req.redirect_uri)
          (some (cs "Invalid parameter value for prompt: " ++ pyFormatOpt req.prompt))
          none req.state,
        audit := [cs "invalid_request"], sessionDeleted := false,
        createdOidcSession := none, codeIssued := false }
    else
      let deleted := req.prompt = some (cs "login") ∧ root_session0.isSome
      let root_session : Option RootSession :=
        if req.prompt = some (cs "login") then none else root_session0
      if root_session.isNone ∧ req.prompt = some (cs "none") then
        -- source line 243: `self.reply_with_authentication_error(request,
        -- "login_required", redirect_uri, state=state)` — positional arguments
        -- land one slot to the right of their intended parameters.
        { reply := reply_with_authentication_error env env.requestStr
            (some (cs "login_required")) (some req.redirect_uri) none req.state,
          audit := [cs "login_required"], sessionDeleted := decide deleted,
          createdOidcSession := none, codeIssued := false }
      else
        match root_session with
        | none =>
            { reply := reply_with_redirect_to_login env (cs "code") req.scope
                req.client_id req.redirect_uri req.state req.loginParameters,
              audit := [], sessionDeleted := decide deleted,
              createdOidcSession := none, codeIssued := false }
        | some session =>
            if req.prompt = some (cs "select_account") then
              { reply := reply_with_redirect_to_login env (cs "code") req.scope
                  req.client_id req.redirect_uri req.state req.loginParameters,
                audit := [], sessionDeleted := decide deleted,
                createdOidcSession := none, codeIssued := false }
            else
              match resolve_tenants env req session with
              | Except.error e =>
                  { reply := e.2, audit := [e.1], sessionDeleted := decide deleted,
                    createdOidcSession := none, codeIssued := false }
              | Except.ok tenants =>
                  let factors_to_setup := _get_factors_to_setup env session
                  if factors_to_setup ≠ [] then
                    { reply := reply_with_factor_setup_redirect env factors_to_setup
                        (cs "code") req.scope req.client_id req.redirect_uri req.state,
                      audit := [], sessionDeleted := decide deleted,
                      createdOidcSession := none, codeIssued := false }
                  else
                    let success := reply_with_successful_response env req.scope
                      req.redirect_uri req.state
                    { reply := success.1, audit := [cs "AUTHORIZE_SUCCESS"],
                      sessionDeleted := decide deleted,
                      createdOidcSession := some tenants, codeIssued := success.2 }

/-- `AuthorizeHandler.authentication_code_flow`: the `authorize_client` call
is fatal only for `InvalidRedirectURI` — `KeyError` (unknown client id),
`InvalidClientSecret` and other `ClientError`s are logged and the flow
continues. -/
def authentication_code_flow (env : AuthorizeEnv) (req : AuthorizeRequest)
    (requestSession : Option RootSession) : FlowResult :=
  match env.clientCheck with
  | ClientCheck.invalidRedirectUri =>
      { reply := reply_with_authentication_error env (cs "invalid_redirect_uri")
          none (some (cs "redirect_uri is not valid for given client_id")) none req.state,
        audit := [cs "invalid_redirect_uri"], sessionDeleted := false,
        createdOidcSession := none, codeIssued := false }
  | _ => flow_after_client_check env req requestSession

/-!
## Cookie introspection (`cookie/handler.py`)

`CookieHandler.__init__` compiles
`"(^{cookie}=[^;]*; ?|; ?{cookie}=[^;]*)"` and `CookieHandler.nginx` applies
`CookiePattern.sub("", cookie_string)` to the incoming `Cookie` header unless
`keepcookie` is set.  The regex engine is embedded for this specific pattern
(the configured cookie name `nm` is assumed to contain no regex
metacharacters, which holds for the plain names used in configuration):
left-to-right scan, non-overlapping matches, first alternative preferred,
greedy `[^;]*` and `?`, `^` anchored at position 0, every match replaced by
the empty string.
-/

/-- Greedy tail of both alternatives: literal `{nm}=` followed by `[^;]*`.
Returns the remainder after the match. -/
def matchNmEq (nm : Str) (t : Str) : Option Str :=
  if (nm ++ ['=']).isPrefixOf t then
    some ((t.drop (nm.length + 1)).dropWhile (· ≠ ';'))
  else none

/-- First alternative `^{nm}=[^;]*; ?` (only tried at position 0): after
`{nm}=[^;]*` a literal `;` must follow (the greedy `[^;]*` stops exactly at
the first `;`, so the match succeeds iff `dropWhile (· ≠ ';')` is nonempty),
then one optional space is consumed greedily. -/
def matchAlt1 (nm : Str) (s : Str) : Option Str :=
  if (nm ++ ['=']).isPrefixOf s then
    match (s.drop (nm.length + 1)).dropWhile (· ≠ ';') with
    | [] => none
    | c :: r2 =>
        if c = ';' then
          match r2 with
          | [] => some r2
          | c2 :: r3 => if c2 = ' ' then some r3 else some r2
        else none
  else none

/-- Second alternative `; ?{nm}=[^;]*`: a literal `;`, a greedily consumed
optional space (with backtracking when `{nm}=` does not follow it), then
`{nm}=[^;]*`. -/
def matchAlt2 (nm : Str) (s : Str) : Option Str :=
  match s with
  | [] => none
  | c :: s1 =>
      if c = ';' then
        match s1 with
        | [] => matchNmEq nm s1
        | c2 :: s2 =>
            if c2 = ' ' then
              match matchNmEq nm s2 with
              | some r => some r
              | none => matchNmEq nm s1
            else matchNmEq nm s1
      else none

/-- `re.sub` scan for the cookie pattern: at each position try the first
alternative (position 0 only), then the second; on a match drop the matched
text and continue after it, otherwise keep the character and advance.  `fuel`
bounds recursion and is never exhausted when it starts at the input length
(every step consumes at least one character). -/
def goSub (nm : Str) : Nat → Str → Bool → Str
  | 0, s, _ => s
  | _ + 1, [], _ => []
  | fuel + 1, c :: rest, atStart =>
      match (if atStart then matchAlt1 nm (c :: rest) else none) with
      | some r => goSub nm fuel r false
      | none =>
          match matchAlt2 nm (c :: rest) with
          | some r => goSub nm fuel r false
          | none => c :: goSub nm fuel rest false

/-- `self.CookiePattern.sub("", cookie_string)`. -/
def cookiePatternSub (nm : Str) (s : Str) : Str := goSub nm s.length s true

/-- The `Cookie` header placed into the response headers by
`CookieHandler.nginx` (lines 80-87): the incoming header, stripped through the
cookie pattern unless the `keepcookie` query parameter was passed. -/
def nginx_cookie_header (nm : Str) (keepcookie : Bool) (cookie_string : Str) : Str :=
  if keepcookie then cookie_string else cookiePatternSub nm cookie_string

/-- Render a cookie list into a `Cookie` header (`name=value` joined by
`"; "`), the form browsers send. -/
def renderCookies (l : List (Str × Str)) : Str :=
  List.intercalate (cs "; ") (l.map fun kv => kv.1 ++ '=' :: kv.2)

/-- Re-parse a `Cookie` header: split on `;`, strip leading spaces, drop empty
pieces, split each piece at its first `=`. -/
def parseCookieHeader (s : Str) : List (Str × Str) :=
  ((splitOnChar ';' s).map (fun p => p.dropWhile (· = ' '))).filterMap fun p =>
    if p = [] then none
    else some (p.takeWhile (· ≠ '='), (p.dropWhile (· ≠ '=')).drop 1)

/-- Well-formedness of a cookie name: nonempty, no `;`, no `=`, no space. -/
def wfCookieName (n : Str) : Prop :=
  n ≠ [] ∧ ';' ∉ n ∧ '=' ∉ n ∧ ' ' ∉ n

/-- Well-formedness of a rendered cookie pair relative to the SeaCat cookie
name `nm`: well-formed name different from `nm`, value without `;`. -/
def wfOtherCookie (nm : Str) (kv : Str × Str) : Prop :=
  wfCookieName kv.1 ∧ kv.1 ≠ nm ∧ ';' ∉ kv.2

/-!
## Session authorization on impersonation (`openidconnect/service.py`)

`OpenIdConnectService.create_oidc_session` (lines 233-308) and
`OpenIdConnectService.refresh_session` (lines 108-195) both compute
`exclude_resources = {"authz:superuser", "authz:impersonate"}` whenever the
root session carries `Authentication.ImpersonatorSessionId`, and pass it to
`authz_session_builder`.
-/

/-- The authorization slice of a child OIDC session. -/
structure OidcSession where
  authz : List (Str × List Str)
  impersonatorSessionId : Option Str
deriving Repr, DecidableEq

/-- `exclude_resources` as computed in `create_oidc_session` /
`refresh_session`. -/
def exclude_resources_of (root : RootSession) : List Str :=
  if root.impersonatorSessionId.isSome then
    [cs "authz:superuser", cs "authz:impersonate"]
  else []

/-- Modelled from the spec: `authz_session_builder` /
`build_credentials_authz` (modules `seacatauth.session` and
`seacatauth.authz`, not under `src/`).  Per §4.4 the resolver expands the
credentials' roles into `{"*": [...], tenant_i: [...]}` and subtracts
`exclude_resources` from every resource list; `baseAuthz` stands for the
expansion before subtraction. -/
def authz_session_builder (baseAuthz : List (Str × List Str)) (excl : List Str) :
    List (Str × List Str) :=
  baseAuthz.map fun kv => (kv.1, kv.2.filter (fun r => !(excl.contains r)))

/-- `OpenIdConnectService.create_oidc_session`, restricted to the
authorization data: the child session's authz is built with the impersonation
exclusions, and the impersonator marker is transferred. -/
def create_oidc_session (root : RootSession) (baseAuthz : List (Str × List Str)) :
    OidcSession :=
  { authz := authz_session_builder baseAuthz (exclude_resources_of root),
    impersonatorSessionId := root.impersonatorSessionId }

/-- `OpenIdConnectService.refresh_session`, restricted to the authorization
data: the session's authz is rebuilt from the current state with the same
impersonation exclusions (derived from the parent root session). -/
def refresh_session (root : RootSession) (old : OidcSession)
    (baseAuthz : List (Str × List Str)) : OidcSession :=
  { old with authz := authz_session_builder baseAuthz (exclude_resources_of root) }

/-!
## LDAP provider connection discipline (`credentials/providers/ldap.py`)

Connections are modelled by the trace of bind/unbind events they emit.
-/

/-- Events on one LDAP connection. -/
inductive LdapEv where
  | bindOk    -- `simple_bind_s` succeeded
  | bindFail  -- `simple_bind_s` raised `ldap.INVALID_CREDENTIALS`
  | opEv      -- the search/count/locate/get operation body ran
  | unbind    -- `unbind_s`
deriving Repr, DecidableEq

/-- Outcome of `simple_bind_s(dn, password)` inside the authenticate worker. -/
inductive BindOutcome where
  | success
  | invalidCredentials
deriving Repr, DecidableEq

/-- `LDAPCredentialsProvider._authenticate_worker` (lines 228-249): build a
fresh client, `simple_bind_s`; on `ldap.INVALID_CREDENTIALS` return `False`
immediately (no `unbind_s` on this path); on success `unbind_s` and return
`True`.  Returns the result and the connection's event trace. -/
def _authenticate_worker (bind : BindOutcome) : Bool × List LdapEv :=
  match bind with
  | BindOutcome.invalidCredentials => (false, [LdapEv.bindFail])
  | BindOutcome.success => (true, [LdapEv.bindOk, LdapEv.unbind])

/-- `LDAPCredentialsProvider._ldap_client` (lines 322-341) driving one worker
body (`_get_worker`/`_search_worker`/`_count_worker`/`_locate_worker`): bind,
`yield` into the operation inside `try`, and `unbind_s` in `finally` — the
unbind runs whether the operation returns or raises.  (When the initial bind
itself raises, the `try` block is never entered.) -/
def _ldap_client_run (bindSucceeds : Bool) (opResult : Except Str Nat) :
    Except Str Nat × List LdapEv :=
  if bindSucceeds then (opResult, [LdapEv.bindOk, LdapEv.opEv, LdapEv.unbind])
  else (Except.error (cs "bind failed"), [LdapEv.bindFail])

/-!
## Access-token lookup (`openidconnect/service.py`)

`OpenIdConnectService.get_session_by_access_token` (lines 623-640).
-/

/-- One opaque-token record (§4.1): token value (the hash indirection is
dropped — lookups compare values), type tag, referenced session id, strict
expiry. -/
structure TokenRecord where
  value : Str
  ttype : Str
  sid : Str
  expiresAt : Nat
deriving Repr, DecidableEq

/-- Combined store state: token records and the ids of existing sessions. -/
structure TokenStore where
  tokens : List TokenRecord
  sessions : List Str
deriving Repr, DecidableEq

/-- Modelled from the spec: `TokenService.get` (module
`seacatauth.session.token`, not under `src/`).  Per §4.1 `get` fails with
not-found when the token is absent, expired, or typed differently than
requested. -/
def token_get (st : TokenStore) (now : Nat) (v : Str) (ttype : Str) :
    Option TokenRecord :=
  st.tokens.find? fun t => t.value == v && t.ttype == ttype && decide (now < t.expiresAt)

/-- Modelled from the spec: `TokenService.delete_token` (not under `src/`),
§4.1 `delete(token_bytes)`. -/
def delete_token (st : TokenStore) (v : Str) : TokenStore :=
  { st with tokens := st.tokens.filter fun t => !(t.value == v) }

/-- `OpenIdConnectService.get_session_by_access_token`: look the value up as
an `oat` token (failure → `SessionNotFoundError "Invalid or expired access
token"`); then load the referenced session — when it no longer exists, delete
the dangling token record and fail with `SessionNotFoundError "Access token
points to a nonexistent session"`.  (`SessionService.get`, not under `src/`,
is modelled from §4.2 as a lookup failing on a missing id; base64 plumbing of
the token value is dropped.)  Returns the result and the store afterwards. -/
def get_session_by_access_token (st : TokenStore) (now : Nat) (token_value : Str) :
    Except Str Str × TokenStore :=
  match token_get st now token_value (cs "oat") with
  | none => (Except.error (cs "Invalid or expired access token"), st)
  | some td =>
      if st.sessions.contains td.sid then (Except.ok td.sid, st)
      else (Except.error (cs "Access token points to a nonexistent session"),
            delete_token st token_value)

/-!
## Concrete fixtures

A representative environment, root session and request used by the concrete
evaluations below (client `app1`, registered redirect URI `https://app1/cb`,
state `s1`, a superuser caller assigned the tenant `default`).
-/

set_option maxRecDepth 100000

/-- Substring test (used to state that a location does or does not carry a
given query fragment). -/
def strContainsSub : Str → Str → Bool
  | [], needle => needle.isEmpty
  | c :: rest, needle => needle.isPrefixOf (c :: rest) || strContainsSub rest needle

/-- Fixture environment: all collaborator calls succeed. -/
def envW : AuthorizeEnv :=
  { publicApiBaseUrl := cs "https://auth.test/api"
    authWebuiBaseUrl := cs "https://auth.test"
    clientCheck := ClientCheck.ok
    userTenants := [cs "default"]
    tenantExists := fun t => t == cs "default"
    lastAuthorizedTenants := []
    enforceFactors := none
    credEnforceFactors := []
    generatedCode := cs "c0de"
    requestStr := cs "<Request>" }

/-- Fixture root session: superuser, authenticated with a password factor. -/
def sessW : RootSession :=
  { sessionType := cs "root"
    credentialsId := cs "cid1"
    authz := [(cs "*", [cs "authz:superuser"])]
    loginDescriptorFactors := [cs "password"]
    impersonatorSessionId := none }

/-- Fixture request: `response_type=code&client_id=app1&redirect_uri=https://app1/cb&scope=openid&state=s1`. -/
def reqW : AuthorizeRequest :=
  { scope := [cs "openid"]
    client_id := cs "app1"
    redirect_uri := cs "https://app1/cb"
    state := some (cs "s1")
    prompt := none
    loginParameters := [] }

/-- Fixture environment in which `authorize_client` raised
`InvalidRedirectURI`. -/
def envIRU : AuthorizeEnv := { envW with clientCheck := ClientCheck.invalidRedirectUri }

/-- Fixture environment with a credential-enforced `totp` factor. -/
def envC6x : AuthorizeEnv := { envW with credEnforceFactors := [cs "totp"] }

/-- Fixture root session whose current authentication already satisfied both
`password` and `totp`. -/
def sessC6x : RootSession := { sessW with loginDescriptorFactors := [cs "password", cs "totp"] }

/-- The factor-setup set exactly as the claim words it:
`(globally_enforced_factors ∪ credential_enforced_factors) −
factors_satisfied_by_current_authentication`.  Stated from the claim for
comparison against `_get_factors_to_setup`, which is translated from the
source. -/
def claimed_factors_to_setup (env : AuthorizeEnv) (session : RootSession) : List Str :=
  (setUnionL (env.enforceFactors.getD []) env.credEnforceFactors).filter
    (fun f => !(session.loginDescriptorFactors.contains f))

/-- The amended factor-setup formula: globally enforced factors minus those
satisfied by the current authentication, followed by the credential-enforced
factors not already listed (credential-enforced factors are **not** reduced by
the satisfied factors). -/
def amended_factors_to_setup (env : AuthorizeEnv) (session : RootSession) : List Str :=
  let fromGlobal :=
    (env.enforceFactors.getD []).filter
      (fun f => !(session.loginDescriptorFactors.contains f))
  fromGlobal ++ env.credEnforceFactors.filter (fun f => !(fromGlobal.contains f))

/-!
## Claim theorems: concrete evaluations
-/

/-- C2: for the failing input (`prompt=none`, no root session, valid client,
`redirect_uri=https://app1/cb`, `state=s1`) the flow replies 302 whose target
is the literal relative URI `login_required` carrying
`error=<str(request)>` and `error_description=<the redirect URI>` — the
positional arguments of `reply_with_authentication_error` are shifted at this
call site — instead of redirecting to `redirect_uri` with
`error=login_required`.  The session cookie is indeed untouched. -/
theorem C2_prompt_none_shifted_arguments :
    authentication_code_flow envW { reqW with prompt := some (cs "none") } none =
      { reply := ⟨302,
          cs "login_required?error=%3CRequest%3E&error_description=https%3A%2F%2Fapp1%2Fcb&state=s1",
          CookieOp.untouched⟩,
        audit := [cs "login_required"], sessionDeleted := false,
        createdOidcSession := none, codeIssued := false }
    ∧ strContainsSub
        (authentication_code_flow envW { reqW with prompt := some (cs "none") } none).reply.location
        (cs "error=login_required") = false := by
  decide

/-- C4: client lookup failures are not fatal.  With the client check failing
as `invalid_client_id` (unknown client) or as `invalid_client_secret`, and
everything else valid, the flow still proceeds through scope validation,
session handling and code issuance, and replies with a successful 302 carrying
an authorization code — it does not terminate with an error reply. -/
theorem C4_client_lookup_nonfatal :
    authentication_code_flow { envW with clientCheck := ClientCheck.invalidClientId }
        reqW (some sessW) =
      { reply := ⟨302, cs "https://app1/cb?state=s1&code=c0de", CookieOp.untouched⟩,
        audit := [cs "AUTHORIZE_SUCCESS"], sessionDeleted := false,
        createdOidcSession := some [], codeIssued := true }
    ∧ authentication_code_flow { envW with clientCheck := ClientCheck.invalidClientSecret }
        reqW (some sessW) =
      { reply := ⟨302, cs "https://app1/cb?state=s1&code=c0de", CookieOp.untouched⟩,
        audit := [cs "AUTHORIZE_SUCCESS"], sessionDeleted := false,
        createdOidcSession := some [], codeIssued := true } := by
  decide

/-- C1 counterexample: with `scope=openid cookie` and an otherwise fully
successful request, the 302 sets the session cookie but its query carries only
the echoed state — no `code` parameter is present and no authorization code
was generated, contradicting "the code parameter is still present". -/
theorem C1_cookie_scope_counterexample :
    authentication_code_flow envW { reqW with scope := [cs "openid", cs "cookie"] }
        (some sessW) =
      { reply := ⟨302, cs "https://app1/cb?state=s1", CookieOp.set⟩,
        audit := [cs "AUTHORIZE_SUCCESS"], sessionDeleted := false,
        createdOidcSession := some [], codeIssued := false }
    ∧ strContainsSub
        (authentication_code_flow envW { reqW with scope := [cs "openid", cs "cookie"] }
          (some sessW)).reply.location (cs "code=") = false := by
  decide

/-- C3 counterexample: on an invalid redirect URI the endpoint does redirect
the user agent — the reply is a 302 whose `Location` is the server's own
public authorize page carrying `error=invalid_redirect_uri` — rather than
rendering an inline error page without redirecting. -/
theorem C3_inline_error_counterexample :
    (authentication_code_flow envIRU reqW (some sessW)).reply =
      ⟨302,
        cs "https://auth.test/api/openidconnect/authorize?error=invalid_redirect_uri&error_description=redirect_uri+is+not+valid+for+given+client_id&state=s1",
        CookieOp.untouched⟩ := by
  decide

/-- C5 counterexample: scope `tenant:acme`, `acme` not assigned, caller has
access to all tenants, `acme` does not exist.  The audit logs
`tenant_not_found`, but the redirect-bound error parameter is
`unauthorized_tenant`, not `tenant_not_found` as the claim states. -/
theorem C5_tenant_not_found_counterexample :
    authentication_code_flow envW { reqW with scope := [cs "openid", cs "tenant:acme"] }
        (some sessW) =
      { reply := ⟨302,
          cs "https://app1/cb?error=unauthorized_tenant&error_description=Unauthorized+tenant%3A+acme&state=s1",
          CookieOp.untouched⟩,
        audit := [cs "tenant_not_found"], sessionDeleted := false,
        createdOidcSession := none, codeIssued := false }
    ∧ strContainsSub
        (authentication_code_flow envW { reqW with scope := [cs "openid", cs "tenant:acme"] }
          (some sessW)).reply.location (cs "error=tenant_not_found") = false := by
  decide

/-- C6 counterexample: `totp` is credential-enforced and already satisfied by
the current authentication (no globally enforced factors).  The claim's
formula gives the empty set — so no setup redirect and a minted code — but the
source computes `["totp"]` and replies with the factor-setup redirect, issuing
no code and creating no session. -/
theorem C6_factors_counterexample :
    claimed_factors_to_setup envC6x sessC6x = []
    ∧ _get_factors_to_setup envC6x sessC6x = [cs "totp"]
    ∧ (authentication_code_flow envC6x reqW (some sessC6x)).createdOidcSession = none
    ∧ (authentication_code_flow envC6x reqW (some sessC6x)).codeIssued = false
    ∧ (authentication_code_flow envC6x reqW (some sessC6x)).reply.location =
        cs "https://auth.test/#/?setup=totp&redirect_uri=https%253A%2F%2Fauth.test%2Fapi%2Fopenidconnect%2Fauthorize%253Fprompt%253Dlogin%2526response_type%253Dcode%2526scope%253Dopenid%2526client_id%253Dapp1%2526redirect_uri%253Dhttps%25253A%25252F%25252Fapp1%25252Fcb%2526state%253Ds1" := by
  decide

/-- C7 counterexample: when the SeaCat cookie is the only cookie in the
header, neither alternative of the stripping pattern matches (both require a
`;`), the header passes through unchanged, and the re-parsed result still
contains one SeaCat cookie — not zero. -/
theorem C7_sole_cookie_counterexample :
    nginx_cookie_header (cs "SeaCatSCI") false (cs "SeaCatSCI=abc") = cs "SeaCatSCI=abc"
    ∧ parseCookieHeader
        (nginx_cookie_header (cs "SeaCatSCI") false (cs "SeaCatSCI=abc")) =
        [(cs "SeaCatSCI", cs "abc")] := by
  decide

/-- C9 counterexample: an authenticate call whose bind fails with
`ldap.INVALID_CREDENTIALS` returns `False` without ever unbinding its
connection. -/
theorem C9_authenticate_no_unbind_counterexample :
    (_authenticate_worker BindOutcome.invalidCredentials).1 = false
    ∧ LdapEv.unbind ∉ (_authenticate_worker BindOutcome.invalidCredentials).2 := by
  decide

/-- C9 (amended): operations running through the `_ldap_client` context
manager end their connection trace with an unbind on every exit path after a
successful bind — whether the operation body returns or raises — and the
authenticate worker unbinds on its success path; only its
invalid-credentials path returns without unbinding. -/
theorem C9_ldap_unbind_amended :
    (∀ r : Except Str Nat, ((_ldap_client_run true r).2).getLast? = some LdapEv.unbind)
    ∧ ((_authenticate_worker BindOutcome.success).2).getLast? = some LdapEv.unbind
    ∧ LdapEv.unbind ∉ (_authenticate_worker BindOutcome.invalidCredentials).2 := by
  refine ⟨fun r => rfl, by decide, by decide⟩

/-- C8: whenever the root session carries an impersonator session id, both
`create_oidc_session` and `refresh_session` exclude `authz:superuser` and
`authz:impersonate`, so no resource list of the resulting session's authz map
contains either resource. -/
theorem C8_impersonated_session_no_superuser
    (root : RootSession) (old : OidcSession) (base : List (Str × List Str)) (i : Str)
    (h : root.impersonatorSessionId = some i) :
    (∀ kv ∈ (create_oidc_session root base).authz,
        cs "authz:superuser" ∉ kv.2 ∧ cs "authz:impersonate" ∉ kv.2)
    ∧ (∀ kv ∈ (refresh_session root old base).authz,
        cs "authz:superuser" ∉ kv.2 ∧ cs "authz:impersonate" ∉ kv.2) := by
  have hex : exclude_resources_of root = [cs "authz:superuser", cs "authz:impersonate"] := by
    unfold exclude_resources_of
    rw [h]
    rfl
  have main : ∀ kv ∈ authz_session_builder base (exclude_resources_of root),
      cs "authz:superuser" ∉ kv.2 ∧ cs "authz:impersonate" ∉ kv.2 := by
    intro kv hkv
    unfold authz_session_builder at hkv
    rw [hex] at hkv
    simp only [List.mem_map] at hkv
    obtain ⟨kv0, _, rfl⟩ := hkv
    constructor
    · intro hmem
      exact absurd (List.mem_filter.mp hmem).2 (by decide)
    · intro hmem
      exact absurd (List.mem_filter.mp hmem).2 (by decide)
  exact ⟨main, main⟩

/-- C8 witness: a concrete impersonated root session whose base authz grants
both critical resources; neither survives in the child or refreshed session. -/
theorem C8_impersonated_session_no_superuser_witness :
    (∀ kv ∈ (create_oidc_session { sessW with impersonatorSessionId := some (cs "imp-sid") }
        [(cs "*", [cs "authz:superuser", cs "authz:impersonate", cs "x:access"])]).authz,
      cs "authz:superuser" ∉ kv.2 ∧ cs "authz:impersonate" ∉ kv.2)
    ∧ (∀ kv ∈ (refresh_session { sessW with impersonatorSessionId := some (cs "imp-sid") }
        ⟨[], none⟩
        [(cs "*", [cs "authz:superuser", cs "authz:impersonate", cs "x:access"])]).authz,
      cs "authz:superuser" ∉ kv.2 ∧ cs "authz:impersonate" ∉ kv.2) :=
  C8_impersonated_session_no_superuser
    { sessW with impersonatorSessionId := some (cs "imp-sid") }
    ⟨[], none⟩
    [(cs "*", [cs "authz:superuser", cs "authz:impersonate", cs "x:access"])]
    (cs "imp-sid") rfl

/-- C10: when a valid, unexpired `oat` token record is found but its
referenced session no longer exists, `get_session_by_access_token` deletes the
dangling token record and fails with the session-not-found error; on the
resulting store, any later lookup of the same token value fails with the
invalid-or-expired error. -/
theorem C10_dangling_token_deleted
    (st : TokenStore) (now now2 : Nat) (v : Str) (td : TokenRecord)
    (hget : token_get st now v (cs "oat") = some td)
    (hsess : st.sessions.contains td.sid = false) :
    get_session_by_access_token st now v =
      (Except.error (cs "Access token points to a nonexistent session"), delete_token st v)
    ∧ (get_session_by_access_token (delete_token st v) now2 v).1 =
        Except.error (cs "Invalid or expired access token") := by
  constructor
  · unfold get_session_by_access_token
    rw [hget]
    dsimp only
    rw [if_neg (show ¬ (st.sessions.contains td.sid = true) by rw [hsess]; decide)]
  · have hnone : token_get (delete_token st v) now2 v (cs "oat") = none := by
      unfold token_get delete_token
      rw [List.find?_eq_none]
      intro x hx
      have hxv : (x.value == v) = false := by
        have := (List.mem_filter.mp hx).2
        simpa using this
      simp [hxv]
    unfold get_session_by_access_token
    rw [hnone]

/-- C10 witness: a store holding one unexpired `oat` token whose session id is
absent from the session store. -/
theorem C10_dangling_token_deleted_witness :
    get_session_by_access_token ⟨[⟨cs "tok", cs "oat", cs "sid9", 100⟩], []⟩ 5 (cs "tok") =
      (Except.error (cs "Access token points to a nonexistent session"),
        delete_token ⟨[⟨cs "tok", cs "oat", cs "sid9", 100⟩], []⟩ (cs "tok"))
    ∧ (get_session_by_access_token
        (delete_token ⟨[⟨cs "tok", cs "oat", cs "sid9", 100⟩], []⟩ (cs "tok")) 6 (cs "tok")).1 =
        Except.error (cs "Invalid or expired access token") :=
  C10_dangling_token_deleted ⟨[⟨cs "tok", cs "oat", cs "sid9", 100⟩], []⟩ 5 6 (cs "tok")
    ⟨cs "tok", cs "oat", cs "sid9", 100⟩ (by decide) (by decide)

/-!
## Helper lemmas for the quantified authorize theorems
-/

theorem quotePlus_append (a b : Str) : quotePlus (a ++ b) = quotePlus a ++ quotePlus b := by
  simp [quotePlus]

theorem quotePlus_plain {s : Str} (h : ∀ x ∈ s, isUnreserved x = true) : quotePlus s = s := by
  induction s with
  | nil => rfl
  | cons c r ih =>
      have hc : isUnreserved c = true := h c (List.mem_cons_self c r)
      have hr : quotePlus r = r := ih (fun x hx => h x (List.mem_cons_of_mem _ hx))
      show quotePlusChar c ++ quotePlus r = c :: r
      rw [hr]
      unfold quotePlusChar
      rw [if_pos hc]
      rfl

theorem urlencode_cons₂ (kv b : Str × Str) (t : List (Str × Str)) :
    urlencode (kv :: b :: t) =
      (quotePlus kv.1 ++ '=' :: quotePlus kv.2) ++ '&' :: urlencode (b :: t) := by
  unfold urlencode
  simp [List.intercalate, List.intersperse]
  rfl

theorem urlencode_single (kv : Str × Str) :
    urlencode [kv] = quotePlus kv.1 ++ '=' :: quotePlus kv.2 := by
  unfold urlencode
  simp [List.intercalate]

theorem urlencodeDoseq_single (k v : Str) :
    urlencodeDoseq [(k, [v])] = quotePlus k ++ '=' :: quotePlus v := by
  unfold urlencodeDoseq
  simp [List.intercalate]

theorem urlencodeDoseq_two (k1 v1 k2 v2 : Str) :
    urlencodeDoseq [(k1, [v1]), (k2, [v2])] =
      (quotePlus k1 ++ '=' :: quotePlus v1) ++ '&' :: (quotePlus k2 ++ '=' :: quotePlus v2) := by
  unfold urlencodeDoseq
  simp [List.intercalate, List.intersperse]
  rfl

theorem urlunparse_simple (s n p q : Str) (hs : s ≠ []) (hn : n ≠ [])
    (hp : p = [] ∨ p.headD ' ' = '/') (hq : q ≠ []) :
    urlunparse s n p [] q [] = s ++ cs "://" ++ n ++ p ++ '?' :: q := by
  have hsep2 : cs "//" = ['/', '/'] := rfl
  have hsep3 : cs "://" = [':', '/', '/'] := rfl
  unfold urlunparse
  dsimp only
  have h0 : (if ([] : Str) ≠ [] then (';' :: ([] : Str)) else []) = [] := by simp
  simp only [h0, List.append_nil]
  rw [if_pos (Or.inl hn : n ≠ [] ∨ p.take 2 = cs "//")]
  have hinner : ¬ (p ≠ [] ∧ p.headD ' ' ≠ '/') := by
    cases hp with
    | inl h => intro hc; exact hc.1 h
    | inr h => intro hc; exact hc.2 h
  rw [if_neg hinner, if_pos hs, if_pos hq,
    if_neg (show ¬ (([] : Str) ≠ []) by simp)]
  rw [hsep2, hsep3]
  simp [List.append_assoc]

theorem reply_success_simple (env : AuthorizeEnv) (scope : List Str) (ru st s n p : Str)
    (hparse : urlparse ru = ⟨s, n, p, [], [], []⟩)
    (huri : ru = s ++ cs "://" ++ n ++ p)
    (hs : s ≠ []) (hn : n ≠ []) (hp : p = [] ∨ p.headD ' ' = '/')
    (hstplain : ∀ x ∈ st, isUnreserved x = true)
    (hcodeplain : ∀ x ∈ env.generatedCode, isUnreserved x = true) :
    reply_with_successful_response env scope ru (some st) =
      (⟨302,
        ru ++ '?' :: (cs "state=" ++ st ++
          (if scope.contains (cs "cookie") then []
           else cs "&code=" ++ env.generatedCode)),
        if scope.contains (cs "cookie") then CookieOp.set else CookieOp.untouched⟩,
       !(scope.contains (cs "cookie"))) := by
  have hqst : quotePlus st = st := quotePlus_plain hstplain
  have hqcode : quotePlus env.generatedCode = env.generatedCode := quotePlus_plain hcodeplain
  have hqskey : quotePlus (cs "state") = cs "state" := by decide
  have hqckey : quotePlus (cs "code") = cs "code" := by decide
  unfold reply_with_successful_response
  rw [hparse]
  dsimp only
  have hkeyne : ∀ (x y : Str), cs "state" ++ '=' :: x ++ y ≠ [] := by
    intro x y hcon
    rw [List.append_assoc] at hcon
    exact absurd (List.append_eq_nil.mp hcon).1 (by decide)
  cases hc : scope.contains (cs "cookie") with
  | false =>
      rw [if_pos (show ¬ (false = true) by decide)]
      have h1 : dictSet (dictSet (parseQs []) (cs "state") [st]) (cs "code") [env.generatedCode] =
          [(cs "state", [st]), (cs "code", [env.generatedCode])] := by
        show dictSet [(cs "state", [st])] (cs "code") [env.generatedCode] = _
        unfold dictSet
        rw [if_neg (by decide : ¬ (cs "state" = cs "code"))]
        rfl
      rw [h1, urlencodeDoseq_two, hqst, hqcode, hqskey, hqckey]
      rw [urlunparse_simple s n p _ hs hn hp (hkeyne st ('&' :: (cs "code" ++ '=' :: env.generatedCode)))]
      rw [← huri]
      rfl
  | true =>
      rw [if_neg (show ¬ ¬ (true = true) by decide)]
      have h1 : dictSet (parseQs []) (cs "state") [st] = [(cs "state", [st])] := rfl
      rw [h1, urlencodeDoseq_single, hqst, hqskey]
      rw [urlunparse_simple s n p _ hs hn hp
        (by intro hcon; exact absurd (List.append_eq_nil.mp hcon).1 (by decide))]
      rw [← huri]
      have e2 : cs "state" ++ '=' :: st = cs "state=" ++ st := rfl
      rw [e2]
      simp

/-- C1 (amended): for every authorize request authenticated by a root session
where the client check passes, `openid` is in scope, no prompt is given,
tenant resolution succeeds and no factor setup is required, the endpoint mints
a child OIDC session and replies 302 to `redirect_uri` with the echoed state
in the query.  An authorization code is minted and placed in the query **iff**
`"cookie"` is *not* in scope; when `"cookie"` is in scope the session cookie
is set on the response and the `code` parameter is omitted. -/
theorem C1_success_reply_amended
    (env : AuthorizeEnv) (req : AuthorizeRequest) (session : RootSession)
    (s n p st : Str) (ts : List Str)
    (hclient : env.clientCheck = ClientCheck.ok)
    (hopenid : req.scope.contains (cs "openid") = true)
    (htype : session.sessionType = cs "root")
    (hprompt : req.prompt = none)
    (hstate : req.state = some st)
    (hparse : urlparse req.redirect_uri = ⟨s, n, p, [], [], []⟩)
    (huri : req.redirect_uri = s ++ cs "://" ++ n ++ p)
    (hs : s ≠ []) (hn : n ≠ []) (hp : p = [] ∨ p.headD ' ' = '/')
    (hstplain : ∀ x ∈ st, isUnreserved x = true)
    (hcodeplain : ∀ x ∈ env.generatedCode, isUnreserved x = true)
    (htenants : resolve_tenants env req session = Except.ok ts)
    (hfactors : _get_factors_to_setup env session = []) :
    authentication_code_flow env req (some session) =
      { reply := ⟨302,
          req.redirect_uri ++ '?' :: (cs "state=" ++ st ++
            (if req.scope.contains (cs "cookie") then []
             else cs "&code=" ++ env.generatedCode)),
          if req.scope.contains (cs "cookie") then CookieOp.set else CookieOp.untouched⟩,
        audit := [cs "AUTHORIZE_SUCCESS"], sessionDeleted := false,
        createdOidcSession := some ts,
        codeIssued := !(req.scope.contains (cs "cookie")) } := by
  unfold authentication_code_flow
  rw [hclient]
  show flow_after_client_check env req (some session) = _
  unfold flow_after_client_check
  rw [hprompt, hstate]
  rw [if_neg (not_not_intro hopenid)]
  dsimp only
  rw [htype]
  rw [if_neg (show ¬ (cs "root" ≠ cs "root") from not_not_intro rfl)]
  rw [if_neg (show ¬ ¬ (promptValid none = true) from not_not_intro rfl)]
  rw [if_neg (show ¬ ((none : Option Str) = some (cs "login")) by simp)]
  rw [if_neg (show ¬ ((some session).isNone ∧ (none : Option Str) = some (cs "none")) by simp)]
  dsimp only
  rw [if_neg (show ¬ ((none : Option Str) = some (cs "select_account")) by simp)]
  rw [htenants]
  dsimp only
  rw [hfactors]
  rw [if_neg (show ¬ (([] : List Str) ≠ []) from not_not_intro rfl)]
  rw [reply_success_simple env req.scope req.redirect_uri st s n p hparse huri hs hn hp
    hstplain hcodeplain]
  rfl

/-- C1 witness: the amended success theorem applied at the concrete fixture
request (`scope=openid`, `state=s1`, redirect URI `https://app1/cb`). -/
theorem C1_success_reply_amended_witness :
    authentication_code_flow envW reqW (some sessW) =
      { reply := ⟨302,
          reqW.redirect_uri ++ '?' :: (cs "state=" ++ cs "s1" ++
            (if reqW.scope.contains (cs "cookie") then []
             else cs "&code=" ++ envW.generatedCode)),
          if reqW.scope.contains (cs "cookie") then CookieOp.set else CookieOp.untouched⟩,
        audit := [cs "AUTHORIZE_SUCCESS"], sessionDeleted := false,
        createdOidcSession := some [],
        codeIssued := !(reqW.scope.contains (cs "cookie")) } :=
  C1_success_reply_amended envW reqW sessW (cs "https") (cs "app1") (cs "/cb") (cs "s1") []
    rfl (by decide) rfl rfl rfl (by decide) rfl (by decide) (by decide) (Or.inr rfl)
    (by decide) (by decide) rfl rfl

/-- C3 (amended): for every authorize request whose client check fails with
`InvalidRedirectURI`, the endpoint never redirects to the client-supplied
`redirect_uri`; it replies 302 to the server's **own** public authorize page
carrying `error=invalid_redirect_uri` (and the echoed state) in the query —
an error page served by the authorization server itself, not an inline
rendering. -/
theorem C3_invalid_redirect_uri_amended
    (env : AuthorizeEnv) (req : AuthorizeRequest) (requestSession : Option RootSession)
    (st : Str)
    (hclient : env.clientCheck = ClientCheck.invalidRedirectUri)
    (hstate : req.state = some st)
    (hstplain : ∀ x ∈ st, isUnreserved x = true) :
    authentication_code_flow env req requestSession =
      { reply := ⟨302,
          env.publicApiBaseUrl ++ cs "/openidconnect/authorize" ++ '?' ::
            (cs "error=invalid_redirect_uri&error_description=redirect_uri+is+not+valid+for+given+client_id&state=" ++ st),
          CookieOp.untouched⟩,
        audit := [cs "invalid_redirect_uri"], sessionDeleted := false,
        createdOidcSession := none, codeIssued := false } := by
  have hqst : quotePlus st = st := quotePlus_plain hstplain
  unfold authentication_code_flow
  rw [hclient]
  dsimp only
  unfold reply_with_authentication_error
  rw [hstate]
  dsimp only
  have hlist : [(cs "error", cs "invalid_redirect_uri")] ++
      [(cs "error_description", cs "redirect_uri is not valid for given client_id")] ++ [] ++
      [(cs "state", st)] =
      [(cs "error", cs "invalid_redirect_uri"),
       (cs "error_description", cs "redirect_uri is not valid for given client_id"),
       (cs "state", st)] := by simp
  rw [hlist]
  rw [urlencode_cons₂, urlencode_cons₂, urlencode_single, hqst]
  rfl

/-- C3 witness: the amended invalid-redirect-URI theorem applied at the
concrete fixtures. -/
theorem C3_invalid_redirect_uri_amended_witness :
    authentication_code_flow envIRU reqW (some sessW) =
      { reply := ⟨302,
          envIRU.publicApiBaseUrl ++ cs "/openidconnect/authorize" ++ '?' ::
            (cs "error=invalid_redirect_uri&error_description=redirect_uri+is+not+valid+for+given+client_id&state=" ++ cs "s1"),
          CookieOp.untouched⟩,
        audit := [cs "invalid_redirect_uri"], sessionDeleted := false,
        createdOidcSession := none, codeIssued := false } :=
  C3_invalid_redirect_uri_amended envIRU reqW (some sessW) (cs "s1") rfl rfl (by decide)

theorem isPrefixOf_append_self (a b : Str) : a.isPrefixOf (a ++ b) = true := by
  induction a with
  | nil => simp [List.isPrefixOf]
  | cons x xs ih => simp [List.isPrefixOf, ih]

theorem flow_reduce_to_tenants
    (env : AuthorizeEnv) (req : AuthorizeRequest) (session : RootSession)
    (hclient : env.clientCheck = ClientCheck.ok)
    (hopenid : req.scope.contains (cs "openid") = true)
    (htype : session.sessionType = cs "root")
    (hprompt : req.prompt = none) :
    authentication_code_flow env req (some session) =
      (match resolve_tenants env req session with
       | Except.error e =>
           { reply := e.2, audit := [e.1], sessionDeleted := false,
             createdOidcSession := none, codeIssued := false }
       | Except.ok tenants =>
           if _get_factors_to_setup env session ≠ [] then
             { reply := reply_with_factor_setup_redirect env
                 (_get_factors_to_setup env session) (cs "code") req.scope
                 req.client_id req.redirect_uri req.state,
               audit := [], sessionDeleted := false,
               createdOidcSession := none, codeIssued := false }
           else
             { reply := (reply_with_successful_response env req.scope
                 req.redirect_uri req.state).1,
               audit := [cs "AUTHORIZE_SUCCESS"], sessionDeleted := false,
               createdOidcSession := some tenants,
               codeIssued := (reply_with_successful_response env req.scope
                 req.redirect_uri req.state).2 }) := by
  unfold authentication_code_flow
  rw [hclient]
  show flow_after_client_check env req (some session) = _
  unfold flow_after_client_check
  rw [hprompt]
  rw [if_neg (not_not_intro hopenid)]
  dsimp only
  rw [htype]
  rw [if_neg (show ¬ (cs "root" ≠ cs "root") from not_not_intro rfl)]
  rw [if_neg (show ¬ ¬ (promptValid none = true) from not_not_intro rfl)]
  rw [if_neg (show ¬ ((none : Option Str) = some (cs "login")) by simp)]
  rw [if_neg (show ¬ ((some session).isNone ∧ (none : Option Str) = some (cs "none")) by simp)]
  dsimp only
  rw [if_neg (show ¬ ((none : Option Str) = some (cs "select_account")) by simp)]
  rfl

theorem reply_err_tenant (env : AuthorizeEnv) (ru t st s n p : Str)
    (hparse : urlparse ru = ⟨s, n, p, [], [], []⟩)
    (htplain : ∀ x ∈ t, isUnreserved x = true)
    (hstplain : ∀ x ∈ st, isUnreserved x = true) :
    reply_with_authentication_error env (cs "unauthorized_tenant") (some ru)
      (some (cs "Unauthorized tenant: " ++ t)) none (some st) =
    ⟨302,
      ru ++ '?' :: (cs "error=unauthorized_tenant&error_description=Unauthorized+tenant%3A+" ++
        (t ++ (cs "&state=" ++ st))),
      CookieOp.untouched⟩ := by
  have hqst : quotePlus st = st := quotePlus_plain hstplain
  have hdesc : quotePlus (cs "Unauthorized tenant: " ++ t) =
      cs "Unauthorized+tenant%3A+" ++ t := by
    rw [quotePlus_append, quotePlus_plain htplain,
      (by decide : quotePlus (cs "Unauthorized tenant: ") = cs "Unauthorized+tenant%3A+")]
  unfold reply_with_authentication_error
  dsimp only
  have hlist : [(cs "error", cs "unauthorized_tenant")] ++
      [(cs "error_description", cs "Unauthorized tenant: " ++ t)] ++ [] ++
      [(cs "state", st)] =
      [(cs "error", cs "unauthorized_tenant"),
       (cs "error_description", cs "Unauthorized tenant: " ++ t),
       (cs "state", st)] := by simp
  rw [hlist, urlencode_cons₂, urlencode_cons₂, urlencode_single, hdesc, hqst, hparse]
  rfl

/-- C5 (amended): for an authorize request with `scope = openid tenant:<t>`
(`t` a specific id): (a) when `t` is assigned to the caller the id is accepted
and the child session is created for `{t}`; (b) when `t` is not assigned and
the caller lacks access to all tenants, the request fails with the
redirect-bound error `unauthorized_tenant`; (c) when the caller has access to
all tenants but `t` does not exist, the request also fails with the
redirect-bound error parameter `unauthorized_tenant` — **not**
`tenant_not_found` — while the audit log records `tenant_not_found`. -/
theorem C5_tenant_scope_amended
    (env : AuthorizeEnv) (req : AuthorizeRequest) (session : RootSession)
    (t s n p st : Str)
    (hscope : req.scope = [cs "openid", cs "tenant:" ++ t])
    (htstar : t ≠ cs "*")
    (htplain : ∀ x ∈ t, isUnreserved x = true)
    (hclient : env.clientCheck = ClientCheck.ok)
    (htype : session.sessionType = cs "root")
    (hprompt : req.prompt = none)
    (hstate : req.state = some st)
    (hparse : urlparse req.redirect_uri = ⟨s, n, p, [], [], []⟩)
    (huri : req.redirect_uri = s ++ cs "://" ++ n ++ p)
    (hs : s ≠ []) (hn : n ≠ []) (hp : p = [] ∨ p.headD ' ' = '/')
    (hstplain : ∀ x ∈ st, isUnreserved x = true)
    (hcodeplain : ∀ x ∈ env.generatedCode, isUnreserved x = true)
    (hfactors : _get_factors_to_setup env session = []) :
    (env.userTenants.contains t = true →
      authentication_code_flow env req (some session) =
        { reply := ⟨302,
            req.redirect_uri ++ '?' :: (cs "state=" ++ st ++
              (cs "&code=" ++ env.generatedCode)),
            CookieOp.untouched⟩,
          audit := [cs "AUTHORIZE_SUCCESS"], sessionDeleted := false,
          createdOidcSession := some [t], codeIssued := true })
    ∧ (env.userTenants.contains t = false →
        (has_resource_access session.authz (cs "authz:superuser")
          || has_resource_access session.authz (cs "authz:tenant:access")) = false →
        authentication_code_flow env req (some session) =
          { reply := ⟨302,
              req.redirect_uri ++ '?' ::
                (cs "error=unauthorized_tenant&error_description=Unauthorized+tenant%3A+" ++
                  (t ++ (cs "&state=" ++ st))),
              CookieOp.untouched⟩,
            audit := [cs "unauthorized_tenant"], sessionDeleted := false,
            createdOidcSession := none, codeIssued := false })
    ∧ (env.userTenants.contains t = false →
        (has_resource_access session.authz (cs "authz:superuser")
          || has_resource_access session.authz (cs "authz:tenant:access")) = true →
        env.tenantExists t = false →
        authentication_code_flow env req (some session) =
          { reply := ⟨302,
              req.redirect_uri ++ '?' ::
                (cs "error=unauthorized_tenant&error_description=Unauthorized+tenant%3A+" ++
                  (t ++ (cs "&state=" ++ st))),
              CookieOp.untouched⟩,
            audit := [cs "tenant_not_found"], sessionDeleted := false,
            createdOidcSession := none, codeIssued := false }) := by
  have hopenid : req.scope.contains (cs "openid") = true := by
    rw [hscope]; rfl
  have hne : ¬ (cs "cookie" = cs "tenant:" ++ t) := by
    intro h
    have hh := congrArg (fun l => List.headD l 'x') h
    dsimp only at hh
    have e1 : List.headD (cs "cookie") 'x' = 'c' := rfl
    have e2 : List.headD (cs "tenant:" ++ t) 'x' = 't' := rfl
    rw [e1, e2] at hh
    exact absurd hh (by decide)
  have hcookie : req.scope.contains (cs "cookie") = false := by
    rw [hscope]
    have hnm : cs "cookie" ∉ ([cs "openid", cs "tenant:" ++ t] : List Str) := by
      intro hm
      rcases List.mem_cons.mp hm with h | hm2
      · exact absurd h (by decide)
      · rcases List.mem_cons.mp hm2 with h | hm3
        · exact hne h
        · exact List.not_mem_nil _ hm3
    simpa using hnm
  have h1 : (cs "tenant:").isPrefixOf (cs "openid") = false := by decide
  have h2 : (cs "tenant:").isPrefixOf (cs "tenant:" ++ t) = true := isPrefixOf_append_self _ _
  have h3 : (cs "tenant:" ++ t).drop 7 = t := by
    rw [show (7 : Nat) = (cs "tenant:").length from rfl]
    exact List.drop_left _ _
  have hred := flow_reduce_to_tenants env req session hclient hopenid htype hprompt
  refine ⟨fun hmem => ?_, fun hmem hall => ?_, fun hmem hall hex => ?_⟩
  · -- (a) assigned tenant accepted
    have hloop : ∀ b, tenantLoop env req session b
        [cs "openid", cs "tenant:" ++ t] [] = Except.ok [t] := by
      intro b
      have e0 : tenantLoop env req session b [cs "openid", cs "tenant:" ++ t] [] =
          tenantLoop env req session b [cs "tenant:" ++ t] [] := rfl
      rw [e0, tenantLoop, if_pos h2, h3, if_neg htstar, if_pos hmem]
      rfl
    have hres : resolve_tenants env req session = Except.ok [t] := by
      unfold resolve_tenants
      rw [hscope]
      dsimp only
      rw [hloop]
      dsimp only
      rw [if_neg (show ¬ (([t] : List Str) = [] ∧
        ([cs "openid", cs "tenant:" ++ t] : List Str).contains (cs "tenant") = true) by simp)]
    rw [hred, hres]
    dsimp only
    rw [if_neg (show ¬ (_get_factors_to_setup env session ≠ []) from not_not_intro hfactors)]
    rw [hstate]
    rw [reply_success_simple env req.scope req.redirect_uri st s n p hparse huri hs hn hp
      hstplain hcodeplain]
    rw [hcookie]
    rfl
  · -- (b) unassigned tenant, no access to all tenants
    have hres : resolve_tenants env req session = Except.error (cs "unauthorized_tenant",
        reply_with_authentication_error env (cs "unauthorized_tenant")
          (some req.redirect_uri) (some (cs "Unauthorized tenant: " ++ t)) none req.state) := by
      unfold resolve_tenants
      rw [hscope, hall]
      dsimp only
      have e0 : tenantLoop env req session false [cs "openid", cs "tenant:" ++ t] [] =
          tenantLoop env req session false [cs "tenant:" ++ t] [] := rfl
      rw [e0, tenantLoop, if_pos h2, h3, if_neg htstar,
        if_neg (show ¬ (env.userTenants.contains t = true) by rw [hmem]; decide)]
      rfl
    rw [hred, hres]
    dsimp only
    rw [hstate, reply_err_tenant env req.redirect_uri t st s n p hparse htplain hstplain]
  · -- (c) access to all tenants, tenant does not exist
    have hres : resolve_tenants env req session = Except.error (cs "tenant_not_found",
        reply_with_authentication_error env (cs "unauthorized_tenant")
          (some req.redirect_uri) (some (cs "Unauthorized tenant: " ++ t)) none req.state) := by
      unfold resolve_tenants
      rw [hscope, hall]
      dsimp only
      have e0 : tenantLoop env req session true [cs "openid", cs "tenant:" ++ t] [] =
          tenantLoop env req session true [cs "tenant:" ++ t] [] := rfl
      rw [e0, tenantLoop, if_pos h2, h3, if_neg htstar,
        if_neg (show ¬ (env.userTenants.contains t = true) by rw [hmem]; decide),
        if_neg (show ¬ (env.tenantExists t = true) by rw [hex]; decide)]
      rfl
    rw [hred, hres]
    dsimp only
    rw [hstate, reply_err_tenant env req.redirect_uri t st s n p hparse htplain hstplain]

/-- C5 witness: the amended tenant-scope theorem applied at the concrete
fixtures with `t = acme` (not assigned, superuser caller, nonexistent tenant:
branch (c) fires). -/
theorem C5_tenant_scope_amended_witness :
    (envW.userTenants.contains (cs "acme") = true →
      authentication_code_flow envW
          { reqW with scope := [cs "openid", cs "tenant:" ++ cs "acme"] } (some sessW) =
        { reply := ⟨302,
            ({ reqW with scope := [cs "openid", cs "tenant:" ++ cs "acme"]} :
              AuthorizeRequest).redirect_uri ++ '?' :: (cs "state=" ++ cs "s1" ++
              (cs "&code=" ++ envW.generatedCode)),
            CookieOp.untouched⟩,
          audit := [cs "AUTHORIZE_SUCCESS"], sessionDeleted := false,
          createdOidcSession := some [cs "acme"], codeIssued := true })
    ∧ (envW.userTenants.contains (cs "acme") = false →
        (has_resource_access sessW.authz (cs "authz:superuser")
          || has_resource_access sessW.authz (cs "authz:tenant:access")) = false →
        authentication_code_flow envW
            { reqW with scope := [cs "openid", cs "tenant:" ++ cs "acme"] } (some sessW) =
          { reply := ⟨302,
              ({ reqW with scope := [cs "openid", cs "tenant:" ++ cs "acme"] } :
                AuthorizeRequest).redirect_uri ++ '?' ::
                (cs "error=unauthorized_tenant&error_description=Unauthorized+tenant%3A+" ++
                  (cs "acme" ++ (cs "&state=" ++ cs "s1"))),
              CookieOp.untouched⟩,
            audit := [cs "unauthorized_tenant"], sessionDeleted := false,
            createdOidcSession := none, codeIssued := false })
    ∧ (envW.userTenants.contains (cs "acme") = false →
        (has_resource_access sessW.authz (cs "authz:superuser")
          || has_resource_access sessW.authz (cs "authz:tenant:access")) = true →
        envW.tenantExists (cs "acme") = false →
        authentication_code_flow envW
            { reqW with scope := [cs "openid", cs "tenant:" ++ cs "acme"] } (some sessW) =
          { reply := ⟨302,
              ({ reqW with scope := [cs "openid", cs "tenant:" ++ cs "acme"] } :
                AuthorizeRequest).redirect_uri ++ '?' ::
                (cs "error=unauthorized_tenant&error_description=Unauthorized+tenant%3A+" ++
                  (cs "acme" ++ (cs "&state=" ++ cs "s1"))),
              CookieOp.untouched⟩,
            audit := [cs "tenant_not_found"], sessionDeleted := false,
            createdOidcSession := none, codeIssued := false }) :=
  C5_tenant_scope_amended envW
    { reqW with scope := [cs "openid", cs "tenant:" ++ cs "acme"] } sessW
    (cs "acme") (cs "https") (cs "app1") (cs "/cb") (cs "s1")
    rfl (by decide) (by decide) rfl rfl rfl rfl (by decide) rfl (by decide) (by decide)
    (Or.inr rfl) (by decide) (by decide) rfl

theorem factors_erase_foldl_mem (S : List Str) :
    ∀ (l : List Str), l.Nodup → ∀ x,
      (x ∈ S.foldl (fun acc f => if acc.contains f then acc.erase f else acc) l ↔
        (x ∈ l ∧ x ∉ S)) := by
  induction S with
  | nil =>
      intro l _ x
      simp
  | cons f S' ih =>
      intro l hl x
      have hl' : (if l.contains f then l.erase f else l).Nodup := by
        by_cases hc : l.contains f = true
        · rw [if_pos hc]; exact hl.erase f
        · rw [if_neg hc]; exact hl
      have hmem' : ∀ y, y ∈ (if l.contains f then l.erase f else l) ↔ (y ∈ l ∧ y ≠ f) := by
        intro y
        by_cases hc : l.contains f = true
        · rw [if_pos hc]
          constructor
          · intro hy
            exact ⟨List.mem_of_mem_erase hy, ((List.Nodup.mem_erase_iff hl).mp hy).1⟩
          · intro hy
            exact (List.Nodup.mem_erase_iff hl).mpr ⟨hy.2, hy.1⟩
        · rw [if_neg hc]
          constructor
          · intro hy
            refine ⟨hy, ?_⟩
            intro he
            subst he
            exact hc (by simpa using hy)
          · exact fun h => h.1
      rw [List.foldl_cons, ih _ hl' x, hmem' x]
      simp only [List.mem_cons]
      constructor
      · intro h
        exact ⟨h.1.1, fun hc => hc.elim (fun he => h.1.2 he) (fun hm => h.2 hm)⟩
      · intro h
        exact ⟨⟨h.1, fun he => h.2 (Or.inl he)⟩, fun hm => h.2 (Or.inr hm)⟩

theorem factors_append_foldl_mem (C : List Str) :
    ∀ (acc : List Str) (x : Str),
      (x ∈ C.foldl (fun acc f => if acc.contains f then acc else acc ++ [f]) acc ↔
        (x ∈ acc ∨ x ∈ C)) := by
  induction C with
  | nil =>
      intro acc x
      simp
  | cons f C' ih =>
      intro acc x
      rw [List.foldl_cons]
      by_cases hc : acc.contains f = true
      · rw [if_pos hc, ih acc x]
        have hf : f ∈ acc := by simpa using hc
        constructor
        · intro h
          rcases h with h | h
          · exact Or.inl h
          · exact Or.inr (List.mem_cons_of_mem _ h)
        · intro h
          rcases h with h | h
          · exact Or.inl h
          · rcases List.mem_cons.mp h with he | h2
            · subst he; exact Or.inl hf
            · exact Or.inr h2
      · rw [if_neg hc, ih _ x]
        constructor
        · intro h
          rcases h with h | h
          · rcases List.mem_append.mp h with h1 | h1
            · exact Or.inl h1
            · exact Or.inr (List.mem_cons.mpr (Or.inl (List.mem_singleton.mp h1)))
          · exact Or.inr (List.mem_cons_of_mem _ h)
        · intro h
          rcases h with h | h
          · exact Or.inl (List.mem_append.mpr (Or.inl h))
          · rcases List.mem_cons.mp h with he | h2
            · subst he
              exact Or.inl (List.mem_append.mpr (Or.inr (List.mem_singleton.mpr rfl)))
            · exact Or.inr h2

/-- C6 (amended): before minting a code the endpoint computes the factor-setup
set as the globally enforced factors **minus** those satisfied by the current
authentication, **plus all** credential-enforced factors (credential-enforced
factors are *not* reduced by the satisfied factors): as a set,
`factors_to_setup = (globally_enforced − satisfied) ∪ credential_enforced`.
If and only if this set is non-empty, the reply is the factor-setup redirect
(302 to the web-UI home carrying `setup=<space-joined factors>` and a return
URL that re-enters authorize with `prompt=login`); otherwise the flow proceeds
to the successful response.  The last conjunct exhibits the redirect at the
concrete fixture: `setup=totp` and the doubly-encoded `prompt%253Dlogin`
loopback are visible in the location. -/
theorem C6_factor_setup_amended
    (env : AuthorizeEnv) (req : AuthorizeRequest) (session : RootSession) (ts : List Str)
    (hclient : env.clientCheck = ClientCheck.ok)
    (hopenid : req.scope.contains (cs "openid") = true)
    (htype : session.sessionType = cs "root")
    (hprompt : req.prompt = none)
    (htenants : resolve_tenants env req session = Except.ok ts) :
    ((env.enforceFactors.getD []).Nodup →
      ∀ f, f ∈ _get_factors_to_setup env session ↔
        ((f ∈ env.enforceFactors.getD [] ∧ f ∉ session.loginDescriptorFactors)
          ∨ f ∈ env.credEnforceFactors))
    ∧ (_get_factors_to_setup env session ≠ [] →
        authentication_code_flow env req (some session) =
          { reply := reply_with_factor_setup_redirect env
              (_get_factors_to_setup env session) (cs "code") req.scope req.client_id
              req.redirect_uri req.state,
            audit := [], sessionDeleted := false, createdOidcSession := none,
            codeIssued := false })
    ∧ (_get_factors_to_setup env session = [] →
        authentication_code_flow env req (some session) =
          { reply := (reply_with_successful_response env req.scope
              req.redirect_uri req.state).1,
            audit := [cs "AUTHORIZE_SUCCESS"], sessionDeleted := false,
            createdOidcSession := some ts,
            codeIssued := (reply_with_successful_response env req.scope
              req.redirect_uri req.state).2 })
    ∧ (authentication_code_flow envC6x reqW (some sessC6x)).reply =
        ⟨302,
          cs "https://auth.test/#/?setup=totp&redirect_uri=https%253A%2F%2Fauth.test%2Fapi%2Fopenidconnect%2Fauthorize%253Fprompt%253Dlogin%2526response_type%253Dcode%2526scope%253Dopenid%2526client_id%253Dapp1%2526redirect_uri%253Dhttps%25253A%25252F%25252Fapp1%25252Fcb%2526state%253Ds1",
          CookieOp.untouched⟩ := by
  have hred := flow_reduce_to_tenants env req session hclient hopenid htype hprompt
  refine ⟨fun hG f => ?_, fun hne => ?_, fun heq => ?_, by decide⟩
  · unfold _get_factors_to_setup
    cases henf : env.enforceFactors with
    | none =>
        rw [factors_append_foldl_mem]
        simp
    | some efs =>
        rw [factors_append_foldl_mem,
          factors_erase_foldl_mem _ _ (by rw [henf] at hG; simpa using hG)]
        simp
  · rw [hred, htenants]
    dsimp only
    rw [if_pos hne]
  · rw [hred, htenants]
    dsimp only
    rw [if_neg (not_not_intro heq)]

/-- C6 witness: the amended factor-setup theorem applied at the concrete
fixtures (credential-enforced `totp`, already satisfied). -/
theorem C6_factor_setup_amended_witness :
    ((envC6x.enforceFactors.getD []).Nodup →
      ∀ f, f ∈ _get_factors_to_setup envC6x sessC6x ↔
        ((f ∈ envC6x.enforceFactors.getD [] ∧ f ∉ sessC6x.loginDescriptorFactors)
          ∨ f ∈ envC6x.credEnforceFactors))
    ∧ (_get_factors_to_setup envC6x sessC6x ≠ [] →
        authentication_code_flow envC6x reqW (some sessC6x) =
          { reply := reply_with_factor_setup_redirect envC6x
              (_get_factors_to_setup envC6x sessC6x) (cs "code") reqW.scope reqW.client_id
              reqW.redirect_uri reqW.state,
            audit := [], sessionDeleted := false, createdOidcSession := none,
            codeIssued := false })
    ∧ (_get_factors_to_setup envC6x sessC6x = [] →
        authentication_code_flow envC6x reqW (some sessC6x) =
          { reply := (reply_with_successful_response envC6x reqW.scope
              reqW.redirect_uri reqW.state).1,
            audit := [cs "AUTHORIZE_SUCCESS"], sessionDeleted := false,
            createdOidcSession := some [],
            codeIssued := (reply_with_successful_response envC6x reqW.scope
              reqW.redirect_uri reqW.state).2 })
    ∧ (authentication_code_flow envC6x reqW (some sessC6x)).reply =
        ⟨302,
          cs "https://auth.test/#/?setup=totp&redirect_uri=https%253A%2F%2Fauth.test%2Fapi%2Fopenidconnect%2Fauthorize%253Fprompt%253Dlogin%2526response_type%253Dcode%2526scope%253Dopenid%2526client_id%253Dapp1%2526redirect_uri%253Dhttps%25253A%25252F%25252Fapp1%25252Fcb%2526state%253Ds1",
          CookieOp.untouched⟩ :=
  C6_factor_setup_amended envC6x reqW sessC6x [] rfl (by decide) rfl rfl rfl

/-!
## Helper lemmas for the cookie-stripping claim
-/

theorem length_dropWhile_le' (p : Char → Bool) (l : Str) :
    (l.dropWhile p).length ≤ l.length := by
  induction l with
  | nil => simp
  | cons x xs ih =>
      rw [List.dropWhile_cons]
      by_cases h : p x = true
      · rw [if_pos h]; exact Nat.le_trans ih (Nat.le_succ _)
      · rw [if_neg h]

theorem dropWhile_append_all {p : Char → Bool} (u w : Str) (h : ∀ x ∈ u, p x = true) :
    (u ++ w).dropWhile p = w.dropWhile p := by
  induction u with
  | nil => rfl
  | cons x xs ih =>
      rw [List.cons_append, List.dropWhile_cons, if_pos (h x (List.mem_cons_self x xs))]
      exact ih (fun y hy => h y (List.mem_cons_of_mem _ hy))

theorem dropWhile_all_nil {p : Char → Bool} (u : Str) (h : ∀ x ∈ u, p x = true) :
    u.dropWhile p = [] := by
  have := dropWhile_append_all u [] h
  simpa using this

theorem takeWhile_append_all {p : Char → Bool} (u w : Str) (h : ∀ x ∈ u, p x = true) :
    (u ++ w).takeWhile p = u ++ w.takeWhile p := by
  induction u with
  | nil => rfl
  | cons x xs ih =>
      rw [List.cons_append, List.takeWhile_cons, if_pos (h x (List.mem_cons_self x xs))]
      rw [ih (fun y hy => h y (List.mem_cons_of_mem _ hy))]
      rfl

theorem matchNmEq_len (nm t r : Str) (h : matchNmEq nm t = some r) :
    r.length ≤ t.length := by
  unfold matchNmEq at h
  by_cases hp : (nm ++ ['=']).isPrefixOf t = true
  · rw [if_pos hp] at h
    have hr : r = (t.drop (nm.length + 1)).dropWhile (· ≠ ';') := by
      injection h with h1
      exact h1.symm
    subst hr
    calc ((t.drop (nm.length + 1)).dropWhile (· ≠ ';')).length
        ≤ (t.drop (nm.length + 1)).length := length_dropWhile_le' _ _
      _ ≤ t.length := by rw [List.length_drop]; omega
  · rw [if_neg hp] at h
    exact absurd h (by simp)

theorem isPrefixOf_length_le (a : Str) :
    ∀ b : Str, a.isPrefixOf b = true → a.length ≤ b.length := by
  induction a with
  | nil => intro b _; simp
  | cons x as ih =>
      intro b h
      cases b with
      | nil => simp [List.isPrefixOf] at h
      | cons y bs =>
          simp only [List.isPrefixOf, Bool.and_eq_true] at h
          simp only [List.length_cons]
          exact Nat.succ_le_succ (ih bs h.2)

theorem matchAlt1_len (nm s r : Str) (h : matchAlt1 nm s = some r) :
    r.length < s.length := by
  unfold matchAlt1 at h
  by_cases hp : (nm ++ ['=']).isPrefixOf s = true
  · rw [if_pos hp] at h
    have hslen : nm.length + 1 ≤ s.length := by
      have := isPrefixOf_length_le (nm ++ ['=']) s hp
      simpa using this
    have hd : ((s.drop (nm.length + 1)).dropWhile (· ≠ ';')).length ≤
        s.length - (nm.length + 1) := by
      calc ((s.drop (nm.length + 1)).dropWhile (· ≠ ';')).length
          ≤ (s.drop (nm.length + 1)).length := length_dropWhile_le' _ _
        _ = s.length - (nm.length + 1) := by rw [List.length_drop]
    revert h
    cases hw : (s.drop (nm.length + 1)).dropWhile (· ≠ ';') with
    | nil => intro h; exact absurd h (by simp)
    | cons c r2 =>
        intro h
        dsimp only at h
        rw [hw] at hd
        by_cases hc : c = ';'
        · rw [if_pos hc] at h
          revert h
          cases r2 with
          | nil =>
              intro h
              injection h with h1
              subst h1
              simp at hd ⊢
              omega
          | cons c2 r3 =>
              intro h
              dsimp only at h
              by_cases hc2 : c2 = ' '
              · rw [if_pos hc2] at h
                injection h with h1
                subst h1
                simp at hd ⊢
                omega
              · rw [if_neg hc2] at h
                injection h with h1
                subst h1
                simp at hd ⊢
                omega
        · rw [if_neg hc] at h
          exact absurd h (by simp)
  · rw [if_neg hp] at h
    exact absurd h (by simp)

theorem matchAlt2_len (nm s r : Str) (h : matchAlt2 nm s = some r) :
    r.length < s.length := by
  unfold matchAlt2 at h
  revert h
  cases s with
  | nil => intro h; exact absurd h (by simp)
  | cons c s1 =>
      intro h
      dsimp only at h
      by_cases hc : c = ';'
      · rw [if_pos hc] at h
        revert h
        cases s1 with
        | nil =>
            intro h
            dsimp only at h
            have := matchNmEq_len nm [] r h
            simp at this
            simp [this]
        | cons c2 s2 =>
            intro h
            dsimp only at h
            by_cases hc2 : c2 = ' '
            · rw [if_pos hc2] at h
              revert h
              cases hm : matchNmEq nm s2 with
              | some r0 =>
                  intro h
                  injection h with h1
                  subst h1
                  have := matchNmEq_len nm s2 r0 hm
                  simp
                  omega
              | none =>
                  intro h
                  have := matchNmEq_len nm (c2 :: s2) r h
                  simp at this ⊢
                  omega
            · rw [if_neg hc2] at h
              have := matchNmEq_len nm (c2 :: s2) r h
              simp at this ⊢
              omega
      · rw [if_neg hc] at h
        exact absurd h (by simp)

theorem goSub_nil (nm : Str) (fuel : Nat) (b : Bool) : goSub nm fuel [] b = [] := by
  cases fuel <;> rfl

theorem goSub_fuel_irrel (nm : Str) :
    ∀ fuel₁ : Nat, ∀ (s : Str) (b : Bool) (fuel₂ : Nat),
      s.length ≤ fuel₁ → s.length ≤ fuel₂ →
      goSub nm fuel₁ s b = goSub nm fuel₂ s b := by
  intro fuel₁
  induction fuel₁ with
  | zero =>
      intro s b fuel₂ h1 _
      have hs : s = [] := by
        cases s with
        | nil => rfl
        | cons c r => simp at h1
      subst hs
      rw [goSub_nil, goSub_nil]
  | succ f ih =>
      intro s b fuel₂ h1 h2
      cases s with
      | nil => rw [goSub_nil, goSub_nil]
      | cons c rest =>
          have hf2 : ∃ f2, fuel₂ = f2 + 1 := by
            cases fuel₂ with
            | zero => simp at h2
            | succ f2 => exact ⟨f2, rfl⟩
          obtain ⟨f2, rfl⟩ := hf2
          show goSub nm (f + 1) (c :: rest) b = goSub nm (f2 + 1) (c :: rest) b
          unfold goSub
          cases ha1 : (if b = true then matchAlt1 nm (c :: rest) else none) with
          | some r =>
              have hr : r.length ≤ f := by
                have hb : matchAlt1 nm (c :: rest) = some r := by
                  by_cases hbb : b = true
                  · rw [if_pos hbb] at ha1; exact ha1
                  · rw [if_neg hbb] at ha1; exact absurd ha1 (by simp)
                have := matchAlt1_len nm (c :: rest) r hb
                simp at h1 this
                omega
              have hr2 : r.length ≤ f2 := by
                have hb : matchAlt1 nm (c :: rest) = some r := by
                  by_cases hbb : b = true
                  · rw [if_pos hbb] at ha1; exact ha1
                  · rw [if_neg hbb] at ha1; exact absurd ha1 (by simp)
                have := matchAlt1_len nm (c :: rest) r hb
                simp at h2 this
                omega
              exact ih r false f2 hr hr2
          | none =>
              cases ha2 : matchAlt2 nm (c :: rest) with
              | some r =>
                  have hlen := matchAlt2_len nm (c :: rest) r ha2
                  simp at h1 h2 hlen
                  exact ih r false f2 (by omega) (by omega)
              | none =>
                  have hrl : rest.length ≤ f := by simp at h1; omega
                  have hrl2 : rest.length ≤ f2 := by simp at h2; omega
                  rw [ih rest false f2 hrl hrl2]

theorem matchAlt1_nil (nm : Str) : matchAlt1 nm [] = none := by
  unfold matchAlt1
  cases hn : nm ++ ['='] with
  | nil => exact absurd hn (by simp)
  | cons a as => rfl

theorem goSub_start_some (nm : Str) (f : Nat) (c : Char) (rest r : Str)
    (h : matchAlt1 nm (c :: rest) = some r) :
    goSub nm (f + 1) (c :: rest) true = goSub nm f r false := by
  conv_lhs => unfold goSub
  have e : (if true = true then matchAlt1 nm (c :: rest) else none) = some r := by
    rw [if_pos rfl, h]
  rw [e]

theorem goSub_start_some_len (nm s r : Str) (h : matchAlt1 nm s = some r) :
    goSub nm s.length s true = goSub nm (s.length - 1) r false := by
  cases s with
  | nil => rw [matchAlt1_nil] at h; exact absurd h (by simp)
  | cons c rest =>
      have e : (c :: rest).length - 1 = rest.length := by simp
      rw [e]
      exact goSub_start_some nm rest.length c rest r h

theorem goSub_true_eq_false (nm s : Str) (h : matchAlt1 nm s = none) (fuel : Nat) :
    goSub nm fuel s true = goSub nm fuel s false := by
  cases fuel with
  | zero => rfl
  | succ f =>
      cases s with
      | nil => rfl
      | cons c rest =>
          show goSub nm (f + 1) (c :: rest) true = goSub nm (f + 1) (c :: rest) false
          unfold goSub
          have e : (if true = true then matchAlt1 nm (c :: rest) else none) = (none : Option Str) := by
            rw [if_pos rfl, h]
          rw [e]
          rfl

theorem goSub_cons_none (nm : Str) (f : Nat) (c : Char) (rest : Str)
    (h : matchAlt2 nm (c :: rest) = none) :
    goSub nm (f + 1) (c :: rest) false = c :: goSub nm f rest false := by
  conv_lhs => unfold goSub
  have e : (if false = true then matchAlt1 nm (c :: rest) else none) = (none : Option Str) := rfl
  rw [e, h]

theorem goSub_cons_some (nm : Str) (f : Nat) (c : Char) (rest r : Str)
    (h : matchAlt2 nm (c :: rest) = some r) :
    goSub nm (f + 1) (c :: rest) false = goSub nm f r false := by
  conv_lhs => unfold goSub
  have e : (if false = true then matchAlt1 nm (c :: rest) else none) = (none : Option Str) := rfl
  rw [e, h]

theorem matchAlt2_nonsemi (nm : Str) (c : Char) (s : Str) (hc : c ≠ ';') :
    matchAlt2 nm (c :: s) = none := by
  unfold matchAlt2
  dsimp only
  rw [if_neg hc]

theorem matchAlt2_sep (nm w : Str) :
    matchAlt2 nm (';' :: ' ' :: w) =
      (match matchNmEq nm w with
       | some r => some r
       | none => matchNmEq nm (' ' :: w)) := rfl

theorem isPrefixOf_nmEq_false (nm : Str) :
    ∀ n1 rest : Str, '=' ∉ nm → '=' ∉ n1 → n1 ≠ nm →
    (nm ++ ['=']).isPrefixOf (n1 ++ '=' :: rest) = false := by
  induction nm with
  | nil =>
      intro n1 rest _ hn1 hne
      cases n1 with
      | nil => exact absurd rfl hne
      | cons b n1b =>
          have hb : ('=' : Char) ≠ b := fun he => hn1 (by rw [he]; exact List.mem_cons_self b n1b)
          show (List.isPrefixOf ['='] (b :: (n1b ++ '=' :: rest))) = false
          simp [List.isPrefixOf, hb]
  | cons a nma ih =>
      intro n1 rest hnm hn1 hne
      have ha : a ≠ '=' := fun he => hnm (by rw [← he]; exact List.mem_cons_self a nma)
      have hnma : '=' ∉ nma := fun hm => hnm (List.mem_cons_of_mem a hm)
      cases n1 with
      | nil =>
          show (List.isPrefixOf (a :: (nma ++ ['='])) ('=' :: rest)) = false
          simp [List.isPrefixOf, ha]
      | cons b n1b =>
          show (List.isPrefixOf (a :: (nma ++ ['='])) (b :: (n1b ++ '=' :: rest))) = false
          by_cases hab : a = b
          · subst hab
            have hne2 : n1b ≠ nma := fun hh => hne (by rw [hh])
            have hn1b : '=' ∉ n1b := fun hm => hn1 (List.mem_cons_of_mem a hm)
            simp [List.isPrefixOf, ih n1b rest hnma hn1b hne2]
          · simp [List.isPrefixOf, hab]

theorem isPrefixOf_space_false (nm X : Str) (hne : nm ≠ []) (hs : ' ' ∉ nm) :
    (nm ++ ['=']).isPrefixOf (' ' :: X) = false := by
  cases nm with
  | nil => exact absurd rfl hne
  | cons a nma =>
      have ha : a ≠ ' ' := fun he => hs (by rw [← he]; exact List.mem_cons_self a nma)
      show (List.isPrefixOf (a :: (nma ++ ['='])) (' ' :: X)) = false
      simp [List.isPrefixOf, ha]

theorem matchNmEq_ne (nm n1 Z : Str) (hnm : '=' ∉ nm) (hn1 : '=' ∉ n1) (hne : n1 ≠ nm) :
    matchNmEq nm (n1 ++ '=' :: Z) = none := by
  have h := isPrefixOf_nmEq_false nm n1 Z hnm hn1 hne
  simp [matchNmEq, h]

theorem matchNmEq_space (nm X : Str) (hne : nm ≠ []) (hs : ' ' ∉ nm) :
    matchNmEq nm (' ' :: X) = none := by
  have h := isPrefixOf_space_false nm X hne hs
  simp [matchNmEq, h]

theorem matchNmEq_self (nm v r : Str) (hv : ';' ∉ v) :
    matchNmEq nm (nm ++ '=' :: (v ++ r)) = some (r.dropWhile (· ≠ ';')) := by
  have hsh : nm ++ '=' :: (v ++ r) = (nm ++ ['=']) ++ (v ++ r) := by simp
  unfold matchNmEq
  rw [hsh, if_pos (isPrefixOf_append_self (nm ++ ['=']) (v ++ r))]
  have hlen : nm.length + 1 = (nm ++ ['=']).length := by simp
  rw [hlen, List.drop_left]
  congr 1
  apply dropWhile_append_all
  intro x hx
  have hxx : x ≠ ';' := fun he => hv (by rw [← he]; exact hx)
  simp [hxx]

theorem matchNmEq_self_nil (nm v : Str) (hv : ';' ∉ v) :
    matchNmEq nm (nm ++ '=' :: v) = some [] := by
  have h := matchNmEq_self nm v [] hv
  simpa using h

theorem matchNmEq_self_sep (nm v w : Str) (hv : ';' ∉ v) :
    matchNmEq nm (nm ++ '=' :: (v ++ ';' :: w)) = some (';' :: w) := by
  have h := matchNmEq_self nm v (';' :: w) hv
  rw [h]
  rfl

theorem matchAlt1_other (nm n1 Z : Str) (hnm : '=' ∉ nm) (hn1 : '=' ∉ n1) (hne : n1 ≠ nm) :
    matchAlt1 nm (n1 ++ '=' :: Z) = none := by
  have h := isPrefixOf_nmEq_false nm n1 Z hnm hn1 hne
  simp [matchAlt1, h]

theorem matchAlt1_self (nm v w : Str) (hv : ';' ∉ v) :
    matchAlt1 nm (nm ++ '=' :: (v ++ ';' :: ' ' :: w)) = some w := by
  unfold matchAlt1
  have hsh : nm ++ '=' :: (v ++ ';' :: ' ' :: w) = (nm ++ ['=']) ++ (v ++ ';' :: ' ' :: w) := by
    simp
  rw [hsh, if_pos (isPrefixOf_append_self (nm ++ ['=']) (v ++ ';' :: ' ' :: w))]
  have hlen : nm.length + 1 = (nm ++ ['=']).length := by simp
  rw [hlen, List.drop_left]
  have hdw : (v ++ ';' :: ' ' :: w).dropWhile (· ≠ ';') = ';' :: ' ' :: w := by
    have h1 : (v ++ ';' :: ' ' :: w).dropWhile (· ≠ ';') = (';' :: ' ' :: w).dropWhile (· ≠ ';') :=
      dropWhile_append_all v _ (fun x hx => by
        have hxx : x ≠ ';' := fun he => hv (by rw [← he]; exact hx)
        simp [hxx])
    rw [h1, List.dropWhile_cons]
    simp
  rw [hdw]
  rfl

theorem matchAlt1_self_nosep (nm v : Str) (hv : ';' ∉ v) :
    matchAlt1 nm (nm ++ '=' :: v) = none := by
  unfold matchAlt1
  have hsh : nm ++ '=' :: v = (nm ++ ['=']) ++ v := by simp
  rw [hsh, if_pos (isPrefixOf_append_self (nm ++ ['=']) v)]
  have hlen : nm.length + 1 = (nm ++ ['=']).length := by simp
  rw [hlen, List.drop_left]
  rw [dropWhile_all_nil v (fun x hx => by
    have hxx : x ≠ ';' := fun he => hv (by rw [← he]; exact hx)
    simp [hxx])]

theorem goSub_noSemi_pre (nm : Str) :
    ∀ (u : Str) (tail : Str) (fuel : Nat), ';' ∉ u → u.length + tail.length ≤ fuel →
    goSub nm fuel (u ++ tail) false = u ++ goSub nm tail.length tail false := by
  intro u
  induction u with
  | nil =>
      intro tail fuel _ hf
      simp only [List.nil_append]
      exact goSub_fuel_irrel nm fuel tail false tail.length (by simpa using hf) le_rfl
  | cons c u2 ih =>
      intro tail fuel hu hf
      have hc : c ≠ ';' := fun he => hu (by rw [← he]; exact List.mem_cons_self c u2)
      have hfuel : ∃ f, fuel = f + 1 := ⟨fuel - 1, by simp at hf; omega⟩
      obtain ⟨f, rfl⟩ := hfuel
      rw [List.cons_append, goSub_cons_none nm f c (u2 ++ tail) (matchAlt2_nonsemi nm c _ hc)]
      rw [ih tail f (fun hm => hu (List.mem_cons_of_mem c hm)) (by simp at hf ⊢; omega)]
      rfl

theorem goSub_noSemi_id (nm u : Str) (fuel : Nat) (hu : ';' ∉ u) (hf : u.length ≤ fuel) :
    goSub nm fuel u false = u := by
  have h := goSub_noSemi_pre nm u [] fuel hu (by simpa using hf)
  simpa [goSub_nil] using h

theorem goSub_sep_skip (nm w : Str) (fuel : Nat)
    (h1 : matchNmEq nm w = none) (h2 : matchNmEq nm (' ' :: w) = none)
    (hf : w.length + 2 ≤ fuel) :
    goSub nm fuel (';' :: ' ' :: w) false = ';' :: ' ' :: goSub nm w.length w false := by
  have hfuel : ∃ f, fuel = (f + 1) + 1 := ⟨fuel - 2, by omega⟩
  obtain ⟨f, rfl⟩ := hfuel
  have ha : matchAlt2 nm (';' :: ' ' :: w) = none := by
    rw [matchAlt2_sep nm w, h1]
    exact h2
  rw [goSub_cons_none nm (f + 1) ';' (' ' :: w) ha]
  rw [goSub_cons_none nm f ' ' w (matchAlt2_nonsemi nm ' ' w (by decide))]
  rw [goSub_fuel_irrel nm f w false w.length (by omega) le_rfl]

theorem goSub_cons_some_len (nm : Str) (c : Char) (rest r : Str)
    (h : matchAlt2 nm (c :: rest) = some r) :
    goSub nm (c :: rest).length (c :: rest) false = goSub nm rest.length r false :=
  goSub_cons_some nm rest.length c rest r h

theorem render_nil : renderCookies [] = [] := rfl

theorem render_single (kv : Str × Str) : renderCookies [kv] = kv.1 ++ '=' :: kv.2 := by
  simp [renderCookies, List.intercalate]

theorem render_cons₂ (a b : Str × Str) (t : List (Str × Str)) :
    renderCookies (a :: b :: t) = (a.1 ++ '=' :: a.2) ++ ';' :: ' ' :: renderCookies (b :: t) := by
  have hsep : cs "; " = [';', ' '] := rfl
  simp [renderCookies, List.intercalate, List.intersperse, hsep, List.append_assoc]

theorem render_head (b : Str × Str) (t : List (Str × Str)) :
    ∃ Z : Str, renderCookies (b :: t) = b.1 ++ '=' :: Z := by
  cases t with
  | nil => exact ⟨b.2, render_single b⟩
  | cons c t2 =>
      refine ⟨b.2 ++ ';' :: ' ' :: renderCookies (c :: t2), ?_⟩
      rw [render_cons₂]
      simp [List.append_assoc]

theorem pieceNoSemi (n w : Str) (h1 : ';' ∉ n) (h2 : ';' ∉ w) : ';' ∉ n ++ '=' :: w := by
  intro hm
  rcases List.mem_append.mp hm with hn | hw
  · exact h1 hn
  · rcases List.mem_cons.mp hw with he | hv
    · exact absurd he (by decide)
    · exact h2 hv

theorem goSub_render_id (nm : Str) (hnm : wfCookieName nm) :
    ∀ (l : List (Str × Str)), (∀ kv ∈ l, wfOtherCookie nm kv) →
    ∀ fuel : Nat, (renderCookies l).length ≤ fuel →
    goSub nm fuel (renderCookies l) false = renderCookies l := by
  intro l
  induction l with
  | nil =>
      intro _ fuel _
      rw [render_nil, goSub_nil]
  | cons a l2 ih =>
      intro hl fuel hf
      have hwa := hl a (List.mem_cons_self a l2)
      have hl2 : ∀ kv ∈ l2, wfOtherCookie nm kv := fun kv hkv => hl kv (List.mem_cons_of_mem a hkv)
      cases l2 with
      | nil =>
          rw [render_single] at hf ⊢
          exact goSub_noSemi_id nm _ fuel (pieceNoSemi a.1 a.2 hwa.1.2.1 hwa.2.2) hf
      | cons b t =>
          have hwb := hl2 b (List.mem_cons_self b t)
          rw [render_cons₂] at hf ⊢
          rw [goSub_noSemi_pre nm (a.1 ++ '=' :: a.2) (';' :: ' ' :: renderCookies (b :: t)) fuel
            (pieceNoSemi a.1 a.2 hwa.1.2.1 hwa.2.2)
            (by simp only [List.length_append, List.length_cons] at hf ⊢; omega)]
          congr 1
          obtain ⟨Z, hZ⟩ := render_head b t
          have hm1 : matchNmEq nm (renderCookies (b :: t)) = none := by
            rw [hZ]
            exact matchNmEq_ne nm b.1 Z hnm.2.2.1 hwb.1.2.2.1 hwb.2.1
          have hm2 : matchNmEq nm (' ' :: renderCookies (b :: t)) = none :=
            matchNmEq_space nm (renderCookies (b :: t)) hnm.1 hnm.2.2.2
          rw [goSub_sep_skip nm (renderCookies (b :: t)) _ hm1 hm2
            (by simp only [List.length_cons]; omega)]
          rw [ih hl2 (renderCookies (b :: t)).length le_rfl]

theorem goSub_strip (nm v : Str) (hnm : wfCookieName nm) (hv : ';' ∉ v)
    (suf : List (Str × Str)) (hsuf : ∀ kv ∈ suf, wfOtherCookie nm kv) :
    ∀ (pre : List (Str × Str)), (∀ kv ∈ pre, wfOtherCookie nm kv) → pre ≠ [] →
    ∀ fuel : Nat, (renderCookies (pre ++ (nm, v) :: suf)).length ≤ fuel →
    goSub nm fuel (renderCookies (pre ++ (nm, v) :: suf)) false = renderCookies (pre ++ suf) := by
  intro pre
  induction pre with
  | nil => intro _ hne _ _; exact absurd rfl hne
  | cons p pre2 ih =>
      intro hpre _ fuel hf
      have hwp := hpre p (List.mem_cons_self p pre2)
      have hpre2 : ∀ kv ∈ pre2, wfOtherCookie nm kv :=
        fun kv hkv => hpre kv (List.mem_cons_of_mem p hkv)
      cases pre2 with
      | nil =>
          simp only [List.cons_append, List.nil_append] at hf ⊢
          rw [render_cons₂ p (nm, v) suf] at hf ⊢
          rw [goSub_noSemi_pre nm (p.1 ++ '=' :: p.2) (';' :: ' ' :: renderCookies ((nm, v) :: suf)) fuel
            (pieceNoSemi p.1 p.2 hwp.1.2.1 hwp.2.2)
            (by simp only [List.length_append, List.length_cons] at hf ⊢; omega)]
          cases suf with
          | nil =>
              have hrs : renderCookies [(nm, v)] = nm ++ '=' :: v := render_single (nm, v)
              rw [hrs]
              have ha : matchAlt2 nm (';' :: ' ' :: (nm ++ '=' :: v)) = some [] := by
                rw [matchAlt2_sep nm (nm ++ '=' :: v), matchNmEq_self_nil nm v hv]
              rw [goSub_cons_some_len nm ';' (' ' :: (nm ++ '=' :: v)) [] ha]
              rw [goSub_nil, List.append_nil, render_single p]
          | cons q t =>
              have hwq := hsuf q (List.mem_cons_self q t)
              have hr : renderCookies ((nm, v) :: q :: t)
                  = nm ++ '=' :: (v ++ ';' :: ' ' :: renderCookies (q :: t)) := by
                rw [render_cons₂ (nm, v) q t]
                simp [List.append_assoc]
              rw [hr]
              have ha : matchAlt2 nm
                  (';' :: ' ' :: (nm ++ '=' :: (v ++ ';' :: ' ' :: renderCookies (q :: t))))
                  = some (';' :: ' ' :: renderCookies (q :: t)) := by
                rw [matchAlt2_sep nm _]
                rw [matchNmEq_self_sep nm v (' ' :: renderCookies (q :: t)) hv]
              rw [goSub_cons_some_len nm ';' _ _ ha]
              obtain ⟨Z, hZ⟩ := render_head q t
              have hm1 : matchNmEq nm (renderCookies (q :: t)) = none := by
                rw [hZ]
                exact matchNmEq_ne nm q.1 Z hnm.2.2.1 hwq.1.2.2.1 hwq.2.1
              have hm2 : matchNmEq nm (' ' :: renderCookies (q :: t)) = none :=
                matchNmEq_space nm (renderCookies (q :: t)) hnm.1 hnm.2.2.2
              rw [goSub_sep_skip nm (renderCookies (q :: t)) _ hm1 hm2
                (by simp only [List.length_cons, List.length_append]; omega)]
              rw [goSub_render_id nm hnm (q :: t) hsuf (renderCookies (q :: t)).length le_rfl]
              rw [render_cons₂ p q t]
      | cons p2 pre3 =>
          simp only [List.cons_append] at hf ⊢
          rw [render_cons₂ p p2 (pre3 ++ (nm, v) :: suf)] at hf ⊢
          rw [render_cons₂ p p2 (pre3 ++ suf)]
          rw [goSub_noSemi_pre nm (p.1 ++ '=' :: p.2)
            (';' :: ' ' :: renderCookies (p2 :: (pre3 ++ (nm, v) :: suf))) fuel
            (pieceNoSemi p.1 p.2 hwp.1.2.1 hwp.2.2)
            (by simp only [List.length_append, List.length_cons] at hf ⊢; omega)]
          congr 1
          obtain ⟨Z, hZ⟩ := render_head p2 (pre3 ++ (nm, v) :: suf)
          have hwp2 := hpre2 p2 (List.mem_cons_self p2 pre3)
          have hm1 : matchNmEq nm (renderCookies (p2 :: (pre3 ++ (nm, v) :: suf))) = none := by
            rw [hZ]
            exact matchNmEq_ne nm p2.1 Z hnm.2.2.1 hwp2.1.2.2.1 hwp2.2.1
          have hm2 : matchNmEq nm (' ' :: renderCookies (p2 :: (pre3 ++ (nm, v) :: suf))) = none :=
            matchNmEq_space nm _ hnm.1 hnm.2.2.2
          rw [goSub_sep_skip nm (renderCookies (p2 :: (pre3 ++ (nm, v) :: suf))) _ hm1 hm2
            (by simp only [List.length_cons]; omega)]
          have hihres := ih hpre2 (by simp)
            (renderCookies ((p2 :: pre3) ++ (nm, v) :: suf)).length le_rfl
          simp only [List.cons_append] at hihres
          rw [hihres]

theorem cookieSub_strip (nm v : Str) (pre suf : List (Str × Str))
    (hnm : wfCookieName nm) (hv : ';' ∉ v)
    (hpre : ∀ kv ∈ pre, wfOtherCookie nm kv) (hsuf : ∀ kv ∈ suf, wfOtherCookie nm kv)
    (hne : pre ++ suf ≠ []) :
    cookiePatternSub nm (renderCookies (pre ++ (nm, v) :: suf)) = renderCookies (pre ++ suf) := by
  unfold cookiePatternSub
  cases pre with
  | nil =>
      cases suf with
      | nil => simp at hne
      | cons q t =>
          simp only [List.nil_append]
          have hr : renderCookies ((nm, v) :: q :: t)
              = nm ++ '=' :: (v ++ ';' :: ' ' :: renderCookies (q :: t)) := by
            rw [render_cons₂ (nm, v) q t]
            simp [List.append_assoc]
          rw [hr]
          have ha : matchAlt1 nm (nm ++ '=' :: (v ++ ';' :: ' ' :: renderCookies (q :: t)))
              = some (renderCookies (q :: t)) :=
            matchAlt1_self nm v (renderCookies (q :: t)) hv
          rw [goSub_start_some_len nm _ _ ha]
          rw [goSub_fuel_irrel nm _ (renderCookies (q :: t)) false (renderCookies (q :: t)).length
            (by simp only [List.length_cons, List.length_append]; omega) le_rfl]
          rw [goSub_render_id nm hnm (q :: t) hsuf (renderCookies (q :: t)).length le_rfl]
  | cons p pre2 =>
      obtain ⟨Z, hZ⟩ := render_head p (pre2 ++ (nm, v) :: suf)
      have hwp := hpre p (List.mem_cons_self p pre2)
      have ha : matchAlt1 nm (renderCookies ((p :: pre2) ++ (nm, v) :: suf)) = none := by
        simp only [List.cons_append]
        rw [hZ]
        exact matchAlt1_other nm p.1 Z hnm.2.2.1 hwp.1.2.2.1 hwp.2.1
      rw [goSub_true_eq_false nm _ ha _]
      exact goSub_strip nm v hnm hv suf hsuf (p :: pre2) hpre (by simp) _ le_rfl

theorem split_ne_nil (c : Char) (s : Str) : splitOnChar c s ≠ [] := by
  cases s with
  | nil => simp [splitOnChar]
  | cons x s2 =>
      unfold splitOnChar
      by_cases h : x = c
      · rw [if_pos h]; simp
      · rw [if_neg h]
        cases splitOnChar c s2 <;> simp

theorem split_no_c (c : Char) (u : Str) (h : c ∉ u) : splitOnChar c u = [u] := by
  induction u with
  | nil => rfl
  | cons x u2 ih =>
      have hx : x ≠ c := fun he => h (by rw [← he]; exact List.mem_cons_self x u2)
      unfold splitOnChar
      rw [if_neg hx, ih (fun hm => h (List.mem_cons_of_mem x hm))]

theorem split_pre (c : Char) (u w : Str) (h : c ∉ u) :
    splitOnChar c (u ++ c :: w) = u :: splitOnChar c w := by
  induction u with
  | nil =>
      show splitOnChar c (c :: w) = [] :: splitOnChar c w
      conv_lhs => unfold splitOnChar
      rw [if_pos rfl]
  | cons x u2 ih =>
      have hx : x ≠ c := fun he => h (by rw [← he]; exact List.mem_cons_self x u2)
      show splitOnChar c (x :: (u2 ++ c :: w)) = (x :: u2) :: splitOnChar c w
      conv_lhs => unfold splitOnChar
      rw [if_neg hx, ih (fun hm => h (List.mem_cons_of_mem x hm))]

theorem mapD_space (R : Str) :
    (splitOnChar ';' (' ' :: R)).map (fun p => p.dropWhile (· = ' '))
      = (splitOnChar ';' R).map (fun p => p.dropWhile (· = ' ')) := by
  conv_lhs => unfold splitOnChar
  rw [if_neg (by decide : ¬ (' ' = ';'))]
  cases hs : splitOnChar ';' R with
  | nil => exact absurd hs (split_ne_nil ';' R)
  | cons p ps =>
      dsimp only
      simp [List.dropWhile_cons]

theorem pieceD (a : Str × Str) (h1 : a.1 ≠ []) (h2 : ' ' ∉ a.1) :
    (a.1 ++ '=' :: a.2).dropWhile (· = ' ') = a.1 ++ '=' :: a.2 := by
  cases hn : a.1 with
  | nil => exact absurd hn h1
  | cons chead n2 =>
      have hc : chead ≠ ' ' := fun he => h2 (by rw [hn, he]; exact List.mem_cons_self ' ' n2)
      rw [List.cons_append, List.dropWhile_cons, if_neg (by simp [hc])]

theorem pieceF (a : Str × Str) (_hne : a.1 ≠ []) (heq : '=' ∉ a.1) :
    (if (a.1 ++ '=' :: a.2 : Str) = [] then none else
      some ((a.1 ++ '=' :: a.2).takeWhile (· ≠ '='), ((a.1 ++ '=' :: a.2).dropWhile (· ≠ '=')).drop 1))
      = some a := by
  rw [if_neg (by simp)]
  have ht : (a.1 ++ '=' :: a.2).takeWhile (· ≠ '=') = a.1 := by
    rw [takeWhile_append_all a.1 ('=' :: a.2) (fun x hx => by
      have hxx : x ≠ '=' := fun he => heq (by rw [← he]; exact hx)
      simp [hxx])]
    rw [List.takeWhile_cons]
    simp
  have hd : (a.1 ++ '=' :: a.2).dropWhile (· ≠ '=') = '=' :: a.2 := by
    rw [dropWhile_append_all a.1 ('=' :: a.2) (fun x hx => by
      have hxx : x ≠ '=' := fun he => heq (by rw [← he]; exact hx)
      simp [hxx])]
    rw [List.dropWhile_cons]
    simp
  rw [ht, hd]
  rfl

theorem filterMap_cons_eq {α β : Type} (f : α → Option β) (x : α) (xs : List α) (b : β)
    (h : f x = some b) : List.filterMap f (x :: xs) = b :: List.filterMap f xs := by
  rw [List.filterMap_cons, h]

theorem parse_render :
    ∀ l : List (Str × Str),
    (∀ kv ∈ l, kv.1 ≠ [] ∧ ';' ∉ kv.1 ∧ '=' ∉ kv.1 ∧ ' ' ∉ kv.1 ∧ ';' ∉ kv.2) →
    parseCookieHeader (renderCookies l) = l := by
  intro l
  induction l with
  | nil => intro _; rfl
  | cons a l2 ih =>
      intro hl
      have hwa := hl a (List.mem_cons_self a l2)
      have hl2 : ∀ kv ∈ l2, kv.1 ≠ [] ∧ ';' ∉ kv.1 ∧ '=' ∉ kv.1 ∧ ' ' ∉ kv.1 ∧ ';' ∉ kv.2 :=
        fun kv hkv => hl kv (List.mem_cons_of_mem a hkv)
      cases l2 with
      | nil =>
          rw [render_single a]
          unfold parseCookieHeader
          rw [split_no_c ';' (a.1 ++ '=' :: a.2) (pieceNoSemi a.1 a.2 hwa.2.1 hwa.2.2.2.2)]
          simp only [List.map_cons, List.map_nil]
          rw [pieceD a hwa.1 hwa.2.2.2.1]
          rw [filterMap_cons_eq (fun p : Str => if p = [] then none else
            some (p.takeWhile (· ≠ '='), (p.dropWhile (· ≠ '=')).drop 1))
            (a.1 ++ '=' :: a.2) _ a (pieceF a hwa.1 hwa.2.2.1)]
          rw [List.filterMap_nil]
      | cons b t =>
          rw [render_cons₂ a b t]
          unfold parseCookieHeader
          rw [split_pre ';' (a.1 ++ '=' :: a.2) (' ' :: renderCookies (b :: t))
            (pieceNoSemi a.1 a.2 hwa.2.1 hwa.2.2.2.2)]
          simp only [List.map_cons]
          rw [pieceD a hwa.1 hwa.2.2.2.1]
          rw [mapD_space (renderCookies (b :: t))]
          rw [filterMap_cons_eq (fun p : Str => if p = [] then none else
            some (p.takeWhile (· ≠ '='), (p.dropWhile (· ≠ '=')).drop 1))
            (a.1 ++ '=' :: a.2) _ a (pieceF a hwa.1 hwa.2.2.1)]
          have hres := ih hl2
          unfold parseCookieHeader at hres
          rw [hres]

/-- C7 (amended): at the cookie/nginx introspection endpoint without
`keepcookie`, whenever the incoming `Cookie` header consists of well-formed
cookies among which the single SeaCat session cookie sits at any position
(first, middle or last) beside at least one other cookie, the returned header
re-parses to exactly the other cookies, in order and verbatim, none of which
is the SeaCat cookie; and when the SeaCat cookie is the only cookie in the
header, the pattern does not match and the header is returned unchanged. -/
theorem C7_cookie_strip_amended (nm v : Str) (pre suf : List (Str × Str))
    (hnm : wfCookieName nm) (hv : ';' ∉ v)
    (hpre : ∀ kv ∈ pre, wfOtherCookie nm kv) (hsuf : ∀ kv ∈ suf, wfOtherCookie nm kv)
    (hne : pre ++ suf ≠ []) :
    parseCookieHeader (nginx_cookie_header nm false (renderCookies (pre ++ (nm, v) :: suf)))
      = pre ++ suf
    ∧ (∀ kv ∈ pre ++ suf, kv.1 ≠ nm)
    ∧ nginx_cookie_header nm false (renderCookies [(nm, v)]) = renderCookies [(nm, v)] := by
  refine ⟨?_, ?_, ?_⟩
  · show parseCookieHeader (cookiePatternSub nm (renderCookies (pre ++ (nm, v) :: suf)))
      = pre ++ suf
    rw [cookieSub_strip nm v pre suf hnm hv hpre hsuf hne]
    apply parse_render
    intro kv hkv
    rcases List.mem_append.mp hkv with hm | hm
    · have h := hpre kv hm
      exact ⟨h.1.1, h.1.2.1, h.1.2.2.1, h.1.2.2.2, h.2.2⟩
    · have h := hsuf kv hm
      exact ⟨h.1.1, h.1.2.1, h.1.2.2.1, h.1.2.2.2, h.2.2⟩
  · intro kv hkv
    rcases List.mem_append.mp hkv with hm | hm
    · exact (hpre kv hm).2.1
    · exact (hsuf kv hm).2.1
  · show cookiePatternSub nm (renderCookies [(nm, v)]) = renderCookies [(nm, v)]
    have hrs : renderCookies [(nm, v)] = nm ++ '=' :: v := render_single (nm, v)
    rw [hrs]
    unfold cookiePatternSub
    rw [goSub_true_eq_false nm (nm ++ '=' :: v) (matchAlt1_self_nosep nm v hv) _]
    exact goSub_noSemi_id nm (nm ++ '=' :: v) _ (pieceNoSemi nm v hnm.2.1 hv) le_rfl

theorem C7_cookie_strip_amended_witness :
    parseCookieHeader (nginx_cookie_header (cs "SeaCatSCI") false
        (renderCookies ([(cs "foo", cs "1")] ++ (cs "SeaCatSCI", cs "abc") :: [(cs "bar", cs "2")])))
      = [(cs "foo", cs "1")] ++ [(cs "bar", cs "2")]
    ∧ (∀ kv ∈ [(cs "foo", cs "1")] ++ [(cs "bar", cs "2")], kv.1 ≠ cs "SeaCatSCI")
    ∧ nginx_cookie_header (cs "SeaCatSCI") false (renderCookies [(cs "SeaCatSCI", cs "abc")])
        = renderCookies [(cs "SeaCatSCI", cs "abc")] :=
  C7_cookie_strip_amended (cs "SeaCatSCI") (cs "abc")
    [(cs "foo", cs "1")] [(cs "bar", cs "2")]
    (by unfold wfCookieName; decide) (by decide)
    (by intro kv hkv; rw [List.mem_singleton] at hkv; subst hkv
        unfold wfOtherCookie wfCookieName; decide)
    (by intro kv hkv; rw [List.mem_singleton] at hkv; subst hkv
        unfold wfOtherCookie wfCookieName; decide)
    (by decide)
